import Mathlib

/-! ymatch: review aggregation, common reviewers and business suggestions

A shallow embedding of `ymatch.cc`.

* `std::map<K,V>` is a list of key/value pairs in strictly ascending key order
  (`Map.WF`); iterating the map is walking the list, `find` is `Map.find`, and
  `operator[]` followed by an in-place change of the value is `Map.update`.
* `double` is `ℚ` (exact arithmetic, no rounding), `fabs` is `|·|`; the rounding of
  binary64 is `roundToDouble`, and the arithmetic of the suggestions is given a
  second time with the result of each operation rounded.
* `long` counters are `ℤ`; they only ever count map entries, so they stay far
  below `2^63`.
* `std::string` is `String` with its lexicographic order.
* A failing `assert` makes the function return `none`.
-/

namespace YMatch

/-! ## Ordered maps -/

/-- The model of `std::map<K,V>`: its entries in iteration order. -/
abbrev Map (K V : Type) := List (K × V)

namespace Map

variable {K V W : Type}

/-- Well-formed map: keys strictly ascending (hence distinct). -/
def WF [LT K] (m : Map K V) : Prop := m.Pairwise (fun a b => a.1 < b.1)

instance [LT K] [DecidableRel (fun a b : K => a < b)] (m : Map K V) : Decidable (WF m) := by
  unfold WF; infer_instance

/-- The lookup `m.find(k)`; `none` stands for `m.end()`. -/
def find [LinearOrder K] : Map K V → K → Option V
  | [], _ => none
  | (k', v) :: rest, k => if k' = k then some v else find rest k

/-- The statement pair `V *p = &m[k]; mutate *p`: the value at `k` (created as
`d`, the value of the default constructor, when `k` is absent) is replaced by
`f` of it. New keys are put at their place in the key order. -/
def update [LinearOrder K] (d : V) (f : V → V) (k : K) : Map K V → Map K V
  | [] => [(k, f d)]
  | (k', v) :: rest =>
    if k < k' then (k, f d) :: (k', v) :: rest
    else if k = k' then (k', f v) :: rest
    else (k', v) :: update d f k rest

/-- The loop `for (auto &kv : m) kv.second = f(kv.second)`. -/
def mapValues (f : V → W) (m : Map K V) : Map K W := m.map (fun kv => (kv.1, f kv.2))

end Map

/-! ## Data model -/

/-- The `struct ReviewKey`. -/
structure ReviewKey where
  business_id : String
  user_id : String
  deriving DecidableEq, Repr

/-- The `ReviewKey::operator<`. -/
def ReviewKey.less (a k : ReviewKey) : Bool :=
  if a.business_id < k.business_id then true
  else if a.business_id > k.business_id then false
  else decide (a.user_id < k.user_id)

/-- The order `std::map<ReviewKey,_>` iterates in: first by `business_id`, then by
`user_id`, which is what `ReviewKey::operator<` decides (`ReviewKey.lt_iff_less`). -/
instance : LinearOrder ReviewKey :=
  LinearOrder.lift' (fun k : ReviewKey => toLex (k.business_id, k.user_id)) (by
    intro a b h
    cases a; cases b
    simp only [EmbeddingLike.apply_eq_iff_eq, Prod.mk.injEq] at h
    simp [h.1, h.2])

/-- The `struct Stars` with the values of its constructor. -/
structure Stars where
  average_stars : ℚ := 0
  count : ℤ := 0
  deriving DecidableEq, Repr

/-- The `struct Delta` with the values of its constructor. -/
structure Delta where
  average_delta : ℚ := 0
  count : ℤ := 0
  deriving DecidableEq, Repr

/-- The `struct CommonReviewer` with the values of its constructor. -/
structure CommonReviewer where
  total_error : ℚ := 0
  reviews_in_common : ℤ := 0
  deriving DecidableEq, Repr

/-- The `CommonReviewer::MatchScore`. The divisor `total_error + 2` is at least 2 in
every table `FindCommonReviewers` builds, `total_error` being a sum of absolute
values; at a divisor of 0, where the `double` quotient is not a number of `ℚ`, the
quotient here is 0. This is the score in exact arithmetic; `MatchScore_rounded` is
the score with each operation rounded. -/
def CommonReviewer.MatchScore (c : CommonReviewer) : ℚ :=
  ((c.reviews_in_common : ℚ) + 2) / (c.total_error + 2) - 1

/-- The `struct Reference` with the values of its constructor. -/
structure Reference where
  reviewer_id : String := ""
  reviewer_stars : ℚ := 0
  contrib : ℚ := 0
  deriving DecidableEq, Repr

/-- The `struct BusinessSuggestion` with the values of its constructor. -/
structure BusinessSuggestion where
  total_delta : ℚ := 0
  total_match_scores : ℚ := 0
  num_references : ℤ := 0
  remove : Bool := false
  positive_ref : Reference := {}
  negative_ref : Reference := {}
  deriving DecidableEq, Repr

/-- One validated line of the review file: the three fields `LoadReviews` reads. -/
structure ReviewRecord where
  business_id : String
  user_id : String
  stars : ℚ
  deriving DecidableEq, Repr

/-! ## The pipeline -/

/-- The body of the reading loop of `LoadReviews`: `value = &(*reviews)[key];
value->average_stars += stars; value->count++`. -/
def LoadReviews.accumulate (reviews : Map ReviewKey Stars) (r : ReviewRecord) :
    Map ReviewKey Stars :=
  Map.update {} (fun value =>
      { average_stars := value.average_stars + r.stars, count := value.count + 1 })
    ⟨r.business_id, r.user_id⟩ reviews

/-- The final loops of `LoadReviews` and `ComputeBusinessData`:
`average_stars /= count`. -/
def Stars.divide (s : Stars) : Stars :=
  { average_stars := s.average_stars / (s.count : ℚ), count := s.count }

/-- The `LoadReviews`, on the sequence of records the file holds (the reading and
parsing of the file is not modelled). -/
def LoadReviews (records : List ReviewRecord) : Map ReviewKey Stars :=
  Map.mapValues Stars.divide (records.foldl LoadReviews.accumulate [])

/-- The body of the first loop of `ComputeBusinessData`. -/
def ComputeBusinessData.accumulate (businesses : Map String Stars)
    (kv : ReviewKey × Stars) : Map String Stars :=
  Map.update {} (fun stars =>
      { average_stars := stars.average_stars + kv.2.average_stars, count := stars.count + 1 })
    kv.1.business_id businesses

/-- The `ComputeBusinessData`. -/
def ComputeBusinessData (reviews : Map ReviewKey Stars) : Map String Stars :=
  Map.mapValues Stars.divide (reviews.foldl ComputeBusinessData.accumulate [])

/-- The body of the first loop of `ComputeUserData`; the `assert` fails when the
business is unknown. -/
def ComputeUserData.accumulate (businesses : Map String Stars) (users : Map String Delta)
    (kv : ReviewKey × Stars) : Option (Map String Delta) :=
  match Map.find businesses kv.1.business_id with
  | none => none
  | some b =>
    some (Map.update {} (fun delta =>
        { average_delta := delta.average_delta + (kv.2.average_stars - b.average_stars),
          count := delta.count + 1 })
      kv.1.user_id users)

/-- The final loop of `ComputeUserData`. -/
def Delta.divide (d : Delta) : Delta :=
  { average_delta := d.average_delta / (d.count : ℚ), count := d.count }

/-- The `ComputeUserData`. -/
def ComputeUserData (businesses : Map String Stars) (reviews : Map ReviewKey Stars) :
    Option (Map String Delta) :=
  (reviews.foldlM (ComputeUserData.accumulate businesses) []).map (Map.mapValues Delta.divide)

/-- The body of the first loop of `FindCommonReviewers`, which collects the
businesses reviewed by `user_id`; the `assert` fails on a second review of one
business. -/
def FindCommonReviewers.collect (user_id : String) (reviewed_businesses : Map String ℚ)
    (kv : ReviewKey × Stars) : Option (Map String ℚ) :=
  if kv.1.user_id = user_id then
    match Map.find reviewed_businesses kv.1.business_id with
    | some _ => none
    | none => some (Map.update 0 (fun _ => kv.2.average_stars) kv.1.business_id
        reviewed_businesses)
  else some reviewed_businesses

/-- The body of the second loop of `FindCommonReviewers`; the `assert` fails when
the business is unknown. -/
def FindCommonReviewers.step (businesses : Map String Stars)
    (reviewed_businesses : Map String ℚ) (common_reviewers : Map String CommonReviewer)
    (kv : ReviewKey × Stars) : Option (Map String CommonReviewer) :=
  match Map.find reviewed_businesses kv.1.business_id with
  | none => some common_reviewers
  | some stars =>
    match Map.find businesses kv.1.business_id with
    | none => none
    | some _ =>
      some (Map.update {} (fun cr =>
          { total_error := cr.total_error + |stars - kv.2.average_stars|,
            reviews_in_common := cr.reviews_in_common + 1 })
        kv.1.user_id common_reviewers)

/-- The `FindCommonReviewers`; `common_reviewers` is the table the caller passes
in, which the function does not clear. -/
def FindCommonReviewers (common_reviewers : Map String CommonReviewer) (user_id : String)
    (_users : Map String Delta) (businesses : Map String Stars)
    (reviews : Map ReviewKey Stars) : Option (Map String CommonReviewer) :=
  (reviews.foldlM (FindCommonReviewers.collect user_id) []).bind fun reviewed_businesses =>
    reviews.foldlM (FindCommonReviewers.step businesses reviewed_businesses) common_reviewers

/-- The change `MakeBusinessSuggestions` makes to the suggestion of the business of
a review that passed the two skips (lines 279 to 302). -/
def MakeBusinessSuggestions.fold (user_id : String) (kv : ReviewKey × Stars)
    (reviewer_delta match_score : ℚ) (suggestion : BusinessSuggestion) :
    BusinessSuggestion :=
  let contrib := reviewer_delta * match_score
  let s1 : BusinessSuggestion :=
    { suggestion with
      total_delta := suggestion.total_delta + contrib
      total_match_scores := suggestion.total_match_scores + match_score
      num_references := suggestion.num_references + 1 }
  let s2 : BusinessSuggestion :=
    if kv.1.user_id = user_id then { s1 with remove := true } else s1
  let s3 : BusinessSuggestion :=
    if contrib > s2.positive_ref.contrib then
      { s2 with positive_ref :=
          { reviewer_id := kv.1.user_id, reviewer_stars := kv.2.average_stars,
            contrib := contrib } }
    else s2
  if contrib < s3.negative_ref.contrib then
    { s3 with negative_ref :=
        { reviewer_id := kv.1.user_id, reviewer_stars := kv.2.average_stars,
          contrib := contrib } }
  else s3

/-- The loop body of `MakeBusinessSuggestions`. -/
def MakeBusinessSuggestions.step (user_id : String)
    (common_reviewers : Map String CommonReviewer) (businesses : Map String Stars)
    (suggestions : Map String BusinessSuggestion) (kv : ReviewKey × Stars) :
    Option (Map String BusinessSuggestion) :=
  match Map.find common_reviewers kv.1.user_id with
  | none => some suggestions
  | some cr =>
    match Map.find businesses kv.1.business_id with
    | none => none
    | some b =>
      let reviewer_delta := kv.2.average_stars - b.average_stars
      let match_score := cr.MatchScore
      if match_score ≤ 0 then some suggestions
      else
        some (Map.update {}
          (MakeBusinessSuggestions.fold user_id kv reviewer_delta match_score)
          kv.1.business_id suggestions)

/-- The `MakeBusinessSuggestions`. -/
def MakeBusinessSuggestions (user_id : String)
    (common_reviewers : Map String CommonReviewer) (businesses : Map String Stars)
    (reviews : Map ReviewKey Stars) : Option (Map String BusinessSuggestion) :=
  reviews.foldlM (MakeBusinessSuggestions.step user_id common_reviewers businesses) []

/-- One line of the table `PrintBusinessSuggestions` prints, as values. -/
structure SuggestionRow where
  user_id : String
  business_id : String
  total_delta : ℚ
  num_references : ℤ
  total_match_scores : ℚ
  business_count : ℤ
  business_average : ℚ
  predicted_average : ℚ
  reviewer_id : String
  reviewer_stars : ℚ
  reviewer_contrib : ℚ
  deriving DecidableEq, Repr

/-- The loop body of `PrintBusinessSuggestions`: nothing for a removed business,
else one more row; the `assert` fails when the business is unknown. -/
def PrintBusinessSuggestions.step (user_id : String) (businesses : Map String Stars)
    (rows : List SuggestionRow) (kv : String × BusinessSuggestion) :
    Option (List SuggestionRow) :=
  if kv.2.remove then some rows
  else
    match Map.find businesses kv.1 with
    | none => none
    | some b =>
      let ref := if kv.2.total_delta ≥ 0 then kv.2.positive_ref else kv.2.negative_ref
      some (rows ++ [{
        user_id := user_id
        business_id := kv.1
        total_delta := kv.2.total_delta
        num_references := kv.2.num_references
        total_match_scores := kv.2.total_match_scores
        business_count := b.count
        business_average := b.average_stars
        predicted_average := b.average_stars + kv.2.total_delta / kv.2.total_match_scores
        reviewer_id := ref.reviewer_id
        reviewer_stars := ref.reviewer_stars
        reviewer_contrib := ref.contrib }])

/-- The `PrintBusinessSuggestions`: the rows after the header line, in order. -/
def PrintBusinessSuggestions (user_id : String)
    (suggestions : Map String BusinessSuggestion) (businesses : Map String Stars) :
    Option (List SuggestionRow) :=
  suggestions.foldlM (PrintBusinessSuggestions.step user_id businesses) []

/-- The `suggestions` table `main` builds from the loaded review table: the calls
of `ComputeBusinessData`, `ComputeUserData`, `FindCommonReviewers` (on the empty
`common_reviewers`) and `MakeBusinessSuggestions`, in this order. -/
def main_suggestions (user_id : String) (reviews : Map ReviewKey Stars) :
    Option (Map String BusinessSuggestion) :=
  let businesses := ComputeBusinessData reviews
  (ComputeUserData businesses reviews).bind fun users =>
    (FindCommonReviewers [] user_id users businesses reviews).bind fun common_reviewers =>
      MakeBusinessSuggestions user_id common_reviewers businesses reviews

/-- The rows `main` prints for the action `suggest_businesses`. -/
def main_suggest_businesses (user_id : String) (reviews : Map ReviewKey Stars) :
    Option (List SuggestionRow) :=
  (main_suggestions user_id reviews).bind fun suggestions =>
    PrintBusinessSuggestions user_id suggestions (ComputeBusinessData reviews)

/-! ## The pipeline with rounded arithmetic

The compile line of the source (`-m64 -march=corei7-avx`) gives SSE/AVX arithmetic:
the result of every `double` operation is rounded to binary64, to nearest, ties to
even, and no multiply-add is fused. The definitions below repeat the arithmetic of
`MatchScore`, `MakeBusinessSuggestions` and `PrintBusinessSuggestions` with the
result of each operation passed through a rounding `fl`; with `fl := id` they are
the definitions above, with `fl := roundToDouble` the arithmetic of the binary. -/

/-- The number of halvings that bring `n` below 2, the integer part of its binary
logarithm (`fuel` bounds the halvings; `n` itself is enough). -/
def log2Fuel : ℕ → ℕ → ℕ
  | 0, _ => 0
  | fuel + 1, n => if n < 2 then 0 else log2Fuel fuel (n / 2) + 1

/-- The exponent `e` with `2^e ≤ |x| < 2^(e+1)`, for `x ≠ 0`. -/
def binade (x : ℚ) : ℤ :=
  let d : ℤ := (log2Fuel x.num.natAbs x.num.natAbs : ℤ) - (log2Fuel x.den x.den : ℤ)
  if (2 : ℚ) ^ d ≤ |x| then d else d - 1

/-- The integer nearest to `q`, the even one of the two when `q` is half-way. -/
def roundNearestEven (q : ℚ) : ℤ :=
  let f := ⌊q⌋
  if q - f < 1 / 2 then f
  else if 1 / 2 < q - f then f + 1
  else if f % 2 = 0 then f else f + 1

/-- The binary64 value nearest to `x`, ties to even: 53 significant bits, with the
fixed spacing `2^-1074` below `2^-1022`. Overflow to infinity (from `2^1024` on) is
not modelled. -/
def roundToDouble (x : ℚ) : ℚ :=
  if x = 0 then 0
  else
    let ulp : ℚ := (2 : ℚ) ^ (max (binade x) (-1022) - 52)
    (roundNearestEven (x / ulp) : ℚ) * ulp

/-- The `CommonReviewer::MatchScore` with rounding `fl`: the conversion of
`reviews_in_common`, the two sums, the quotient and the difference. -/
def CommonReviewer.MatchScore_rounded (fl : ℚ → ℚ) (c : CommonReviewer) : ℚ :=
  fl (fl (fl (fl (c.reviews_in_common : ℚ) + 2) / fl (c.total_error + 2)) - 1)

/-- The `MakeBusinessSuggestions.fold` with rounding `fl`: the product `contrib` and
the two running sums. -/
def MakeBusinessSuggestions.fold_rounded (fl : ℚ → ℚ) (user_id : String)
    (kv : ReviewKey × Stars) (reviewer_delta match_score : ℚ)
    (suggestion : BusinessSuggestion) : BusinessSuggestion :=
  let contrib := fl (reviewer_delta * match_score)
  let s1 : BusinessSuggestion :=
    { suggestion with
      total_delta := fl (suggestion.total_delta + contrib)
      total_match_scores := fl (suggestion.total_match_scores + match_score)
      num_references := suggestion.num_references + 1 }
  let s2 : BusinessSuggestion :=
    if kv.1.user_id = user_id then { s1 with remove := true } else s1
  let s3 : BusinessSuggestion :=
    if contrib > s2.positive_ref.contrib then
      { s2 with positive_ref :=
          { reviewer_id := kv.1.user_id, reviewer_stars := kv.2.average_stars,
            contrib := contrib } }
    else s2
  if contrib < s3.negative_ref.contrib then
    { s3 with negative_ref :=
        { reviewer_id := kv.1.user_id, reviewer_stars := kv.2.average_stars,
          contrib := contrib } }
  else s3

/-- The `MakeBusinessSuggestions.step` with rounding `fl`: the difference
`reviewer_delta`, the match score and the fold. -/
def MakeBusinessSuggestions.step_rounded (fl : ℚ → ℚ) (user_id : String)
    (common_reviewers : Map String CommonReviewer) (businesses : Map String Stars)
    (suggestions : Map String BusinessSuggestion) (kv : ReviewKey × Stars) :
    Option (Map String BusinessSuggestion) :=
  match Map.find common_reviewers kv.1.user_id with
  | none => some suggestions
  | some cr =>
    match Map.find businesses kv.1.business_id with
    | none => none
    | some b =>
      let reviewer_delta := fl (kv.2.average_stars - b.average_stars)
      let match_score := cr.MatchScore_rounded fl
      if match_score ≤ 0 then some suggestions
      else
        some (Map.update {}
          (MakeBusinessSuggestions.fold_rounded fl user_id kv reviewer_delta match_score)
          kv.1.business_id suggestions)

/-- The `MakeBusinessSuggestions` with rounding `fl`. -/
def MakeBusinessSuggestions_rounded (fl : ℚ → ℚ) (user_id : String)
    (common_reviewers : Map String CommonReviewer) (businesses : Map String Stars)
    (reviews : Map ReviewKey Stars) : Option (Map String BusinessSuggestion) :=
  reviews.foldlM (MakeBusinessSuggestions.step_rounded fl user_id common_reviewers businesses)
    []

/-- The `PrintBusinessSuggestions.step` with rounding `fl`: the quotient and the sum
of the predicted rating. -/
def PrintBusinessSuggestions.step_rounded (fl : ℚ → ℚ) (user_id : String)
    (businesses : Map String Stars) (rows : List SuggestionRow)
    (kv : String × BusinessSuggestion) : Option (List SuggestionRow) :=
  if kv.2.remove then some rows
  else
    match Map.find businesses kv.1 with
    | none => none
    | some b =>
      let ref := if kv.2.total_delta ≥ 0 then kv.2.positive_ref else kv.2.negative_ref
      some (rows ++ [{
        user_id := user_id
        business_id := kv.1
        total_delta := kv.2.total_delta
        num_references := kv.2.num_references
        total_match_scores := kv.2.total_match_scores
        business_count := b.count
        business_average := b.average_stars
        predicted_average :=
          fl (b.average_stars + fl (kv.2.total_delta / kv.2.total_match_scores))
        reviewer_id := ref.reviewer_id
        reviewer_stars := ref.reviewer_stars
        reviewer_contrib := ref.contrib }])

/-- The `PrintBusinessSuggestions` with rounding `fl`. -/
def PrintBusinessSuggestions_rounded (fl : ℚ → ℚ) (user_id : String)
    (suggestions : Map String BusinessSuggestion) (businesses : Map String Stars) :
    Option (List SuggestionRow) :=
  suggestions.foldlM (PrintBusinessSuggestions.step_rounded fl user_id businesses) []

/-! ## Notions the statements use -/

/-- The key of a raw record: its (business, user) pair. -/
def ReviewRecord.key (r : ReviewRecord) : ReviewKey := ⟨r.business_id, r.user_id⟩

/-- The raw records of the pair `k`, in input order. -/
def recordsOf (records : List ReviewRecord) (k : ReviewKey) : List ReviewRecord :=
  records.filter (fun r => decide (r.key = k))

/-- The entries of the review table that are reviews of business `b`, in table order. -/
def reviewsOfBusiness (reviews : Map ReviewKey Stars) (b : String) : List (ReviewKey × Stars) :=
  reviews.filter (fun kv => decide (kv.1.business_id = b))

/-- The user `u` has a review of business `b` in the table. -/
def hasReview (reviews : Map ReviewKey Stars) (b u : String) : Prop :=
  (⟨b, u⟩ : ReviewKey) ∈ reviews.map Prod.fst

instance (reviews : Map ReviewKey Stars) (b u : String) : Decidable (hasReview reviews b u) := by
  unfold hasReview; infer_instance

/-- The rating (`average_stars`) of the review of business `b` by user `u`; 0 when
there is none. -/
def rating (reviews : Map ReviewKey Stars) (b u : String) : ℚ :=
  match Map.find reviews ⟨b, u⟩ with
  | some s => s.average_stars
  | none => 0

/-- The businesses reviewed by both `u` and the target user. -/
def commonBusinesses (reviews : Map ReviewKey Stars) (target u : String) : Finset String :=
  (reviews.map (fun kv => kv.1.business_id)).toFinset.filter
    (fun b => hasReview reviews b u ∧ hasReview reviews b target)

/-- The reviews by `u` of businesses the target user reviewed too, in table order. -/
def sharedReviews (reviews : Map ReviewKey Stars) (target u : String) :
    List (ReviewKey × Stars) :=
  reviews.filter (fun kv =>
    decide (kv.1.user_id = u) && (Map.find reviews ⟨kv.1.business_id, target⟩).isSome)

/-- A review qualifies for the suggestions when its user is in the CommonReviewer
table with a match score above 0. -/
def qualifies (common_reviewers : Map String CommonReviewer) (kv : ReviewKey × Stars) : Bool :=
  match Map.find common_reviewers kv.1.user_id with
  | some cr => decide (0 < cr.MatchScore)
  | none => false

/-- The qualifying reviews of business `b`, in table (iteration) order. -/
def qualifyingReviews (common_reviewers : Map String CommonReviewer)
    (reviews : Map ReviewKey Stars) (b : String) : List (ReviewKey × Stars) :=
  reviews.filter (fun kv => decide (kv.1.business_id = b) && qualifies common_reviewers kv)

/-- The match score of the user of a review (0 for a user not in the table). -/
def scoreOf (common_reviewers : Map String CommonReviewer) (kv : ReviewKey × Stars) : ℚ :=
  match Map.find common_reviewers kv.1.user_id with
  | some cr => cr.MatchScore
  | none => 0

/-- The `average_stars` of business `b` in the business table (0 if absent). -/
def businessAverage (businesses : Map String Stars) (b : String) : ℚ :=
  match Map.find businesses b with
  | some s => s.average_stars
  | none => 0

/-- The contribution of a review: (review.average_stars - business.average_stars)
times the match score of its user. -/
def contribOf (common_reviewers : Map String CommonReviewer) (businesses : Map String Stars)
    (kv : ReviewKey × Stars) : ℚ :=
  (kv.2.average_stars - businessAverage businesses kv.1.business_id) *
    scoreOf common_reviewers kv

/-- The `Reference` that names a review. -/
def referenceOf (common_reviewers : Map String CommonReviewer) (businesses : Map String Stars)
    (kv : ReviewKey × Stars) : Reference :=
  { reviewer_id := kv.1.user_id, reviewer_stars := kv.2.average_stars,
    contrib := contribOf common_reviewers businesses kv }

/-- The body of the second loop of `FindCommonReviewers` on a review whose `assert`
holds, with the lookup in `reviewed_businesses` written as the lookup of the target
user's review in the review table. -/
def FindCommonReviewers.accumulate (reviews : Map ReviewKey Stars) (user_id : String)
    (common_reviewers : Map String CommonReviewer) (kv : ReviewKey × Stars) :
    Map String CommonReviewer :=
  if (Map.find reviews ⟨kv.1.business_id, user_id⟩).isSome = true then
    Map.update {} (fun cr =>
        { total_error := cr.total_error +
            |rating reviews kv.1.business_id user_id - kv.2.average_stars|,
          reviews_in_common := cr.reviews_in_common + 1 })
      kv.1.user_id common_reviewers
  else common_reviewers

/-- The loop body of `MakeBusinessSuggestions` on a review whose `assert` holds:
a qualifying review changes the suggestion of its business, another review
changes nothing. -/
def MakeBusinessSuggestions.accumulate (user_id : String)
    (common_reviewers : Map String CommonReviewer) (businesses : Map String Stars)
    (suggestions : Map String BusinessSuggestion) (kv : ReviewKey × Stars) :
    Map String BusinessSuggestion :=
  if qualifies common_reviewers kv = true then
    Map.update {}
      (MakeBusinessSuggestions.fold user_id kv
        (kv.2.average_stars - businessAverage businesses kv.1.business_id)
        (scoreOf common_reviewers kv))
      kv.1.business_id suggestions
  else suggestions

/-- The reference `r` names the review of highest contribution in `Q`, the first
one in the order of `Q` among equals. -/
def firstHighest (c : ReviewKey × Stars → ℚ) (ref : ReviewKey × Stars → Reference)
    (Q : List (ReviewKey × Stars)) (r : Reference) : Prop :=
  ∃ pre kv post, Q = pre ++ kv :: post ∧ r = ref kv ∧
    (∀ x ∈ pre, c x < c kv) ∧ (∀ x ∈ post, c x ≤ c kv)

/-- The reference `r` names the review of lowest contribution in `Q`, the first
one in the order of `Q` among equals. -/
def firstLowest (c : ReviewKey × Stars → ℚ) (ref : ReviewKey × Stars → Reference)
    (Q : List (ReviewKey × Stars)) (r : Reference) : Prop :=
  ∃ pre kv post, Q = pre ++ kv :: post ∧ r = ref kv ∧
    (∀ x ∈ pre, c kv < c x) ∧ (∀ x ∈ post, c kv ≤ c x)

/-- The CommonReviewer table of Scenario A for the target U1. -/
def scenarioA_reviewers : Map String CommonReviewer :=
  [("U1", ⟨0, 1⟩), ("U2", ⟨2, 1⟩), ("U3", ⟨1, 1⟩)]

/-- The suggestion of B1 in Scenario A for the target U1. -/
def scenarioA_suggestion : BusinessSuggestion :=
  { total_delta := 1 / 2, total_match_scores := 1 / 2, num_references := 1, remove := true,
    positive_ref := { reviewer_id := "U1", reviewer_stars := 5, contrib := 1 / 2 },
    negative_ref := {} }

/-- A review table on which the only qualifying review of B1 has a negative
contribution: U1 rates B1 at 3, U2 at 5. -/
def lowRatingTable : Map ReviewKey Stars :=
  [(⟨"B1", "U1"⟩, ⟨3, 1⟩), (⟨"B1", "U2"⟩, ⟨5, 1⟩)]

/-- The review table of Scenario A. -/
def scenarioA : Map ReviewKey Stars :=
  [(⟨"B1", "U1"⟩, ⟨5, 1⟩), (⟨"B1", "U2"⟩, ⟨3, 1⟩), (⟨"B1", "U3"⟩, ⟨4, 1⟩)]

/-- The entries of the review table that are reviews by user `u`, in table order. -/
def reviewsOfUser (reviews : Map ReviewKey Stars) (u : String) : List (ReviewKey × Stars) :=
  reviews.filter (fun kv => decide (kv.1.user_id = u))

/-- The businesses user `u` has reviewed. -/
def businessesReviewedBy (reviews : Map ReviewKey Stars) (u : String) : Finset String :=
  (reviews.map (fun kv => kv.1.business_id)).toFinset.filter (fun b => hasReview reviews b u)

/-- The reference `PrintBusinessSuggestions` prints for a suggestion: the positive
one for `total_delta ≥ 0`, else the negative one. -/
def chosenReference (s : BusinessSuggestion) : Reference :=
  if s.total_delta ≥ 0 then s.positive_ref else s.negative_ref

/-- The rating `PrintBusinessSuggestions` predicts for a suggestion of a business
whose entry in the business table is `b`. -/
def predictedRating (b : Stars) (s : BusinessSuggestion) : ℚ :=
  b.average_stars + s.total_delta / s.total_match_scores

/-- The mean of the ratings of the reviews `L`, each weighted by the match score of
its user. -/
def weightedMean (common_reviewers : Map String CommonReviewer)
    (L : List (ReviewKey × Stars)) : ℚ :=
  (L.map (fun kv => scoreOf common_reviewers kv * kv.2.average_stars)).sum /
    (L.map (scoreOf common_reviewers)).sum

/-- A table of whole-star reviews: U2 agrees with the target U1 on A1 and A2 and is
1 star off on A3, and rates B1 at 1 where U3, U4 and U5 rate it at 5. -/
def roundingTable : Map ReviewKey Stars :=
  [(⟨"A1", "U1"⟩, ⟨5, 1⟩), (⟨"A1", "U2"⟩, ⟨5, 1⟩),
   (⟨"A2", "U1"⟩, ⟨5, 1⟩), (⟨"A2", "U2"⟩, ⟨5, 1⟩),
   (⟨"A3", "U1"⟩, ⟨5, 1⟩), (⟨"A3", "U2"⟩, ⟨4, 1⟩),
   (⟨"B1", "U2"⟩, ⟨1, 1⟩), (⟨"B1", "U3"⟩, ⟨5, 1⟩),
   (⟨"B1", "U4"⟩, ⟨5, 1⟩), (⟨"B1", "U5"⟩, ⟨5, 1⟩)]

/-- The CommonReviewer table of `roundingTable` for the target U1. -/
def roundingTable_reviewers : Map String CommonReviewer :=
  [("U1", ⟨0, 3⟩), ("U2", ⟨1, 3⟩)]

/-- The review table of Scenario B: Scenario A, U3 rating B2 at 5 and U4 rating it
at 4, and B3 rated 4 by both U1 and U3. -/
def scenarioB : Map ReviewKey Stars :=
  [(⟨"B1", "U1"⟩, ⟨5, 1⟩), (⟨"B1", "U2"⟩, ⟨3, 1⟩), (⟨"B1", "U3"⟩, ⟨4, 1⟩),
   (⟨"B2", "U3"⟩, ⟨5, 1⟩), (⟨"B2", "U4"⟩, ⟨4, 1⟩),
   (⟨"B3", "U1"⟩, ⟨4, 1⟩), (⟨"B3", "U3"⟩, ⟨4, 1⟩)]

/-- The CommonReviewer table of Scenario B for the target U1. -/
def scenarioB_reviewers : Map String CommonReviewer :=
  [("U1", ⟨0, 2⟩), ("U2", ⟨2, 1⟩), ("U3", ⟨1, 2⟩)]

/-- The suggestion of B2 in Scenario B for the target U1. -/
def scenarioB_suggestion : BusinessSuggestion :=
  { total_delta := 1 / 6, total_match_scores := 1 / 3, num_references := 1, remove := false,
    positive_ref := { reviewer_id := "U3", reviewer_stars := 5, contrib := 1 / 6 },
    negative_ref := {} }

/-! ## The order on review keys -/

theorem ReviewKey.lt_iff (a b : ReviewKey) :
    a < b ↔ a.business_id < b.business_id ∨
      (a.business_id = b.business_id ∧ a.user_id < b.user_id) := by
  show toLex (a.business_id, a.user_id) < toLex (b.business_id, b.user_id) ↔ _
  rw [Prod.Lex.lt_iff]

theorem ReviewKey.lt_iff_less (a b : ReviewKey) : a < b ↔ a.less b = true := by
  rw [ReviewKey.lt_iff]
  unfold ReviewKey.less
  rcases lt_trichotomy a.business_id b.business_id with h | h | h
  · simp [h]
  · simp [h]
  · simp [h, not_lt_of_gt h, ne_of_gt h]

/-! ## Facts about ordered maps -/

namespace Map

variable {K V W : Type}

theorem find_eq_none_of_forall_ne [LinearOrder K] (m : Map K V) (k : K)
    (h : ∀ kv ∈ m, kv.1 ≠ k) : find m k = none := by
  induction m with
  | nil => rfl
  | cons hd tl ih =>
    obtain ⟨k', v⟩ := hd
    have h1 : k' ≠ k := h (k', v) (List.mem_cons_self _ _)
    simp only [find, h1, if_false]
    exact ih (fun kv hkv => h kv (List.mem_cons_of_mem _ hkv))

theorem find_isSome_iff [LinearOrder K] (m : Map K V) (k : K) :
    (find m k).isSome = true ↔ k ∈ m.map Prod.fst := by
  induction m with
  | nil => simp [find]
  | cons hd tl ih =>
    obtain ⟨k', v⟩ := hd
    by_cases hk : k' = k
    · simp [find, hk]
    · simp only [find, hk, if_false, List.map_cons, List.mem_cons]
      rw [ih]
      constructor
      · intro h; exact Or.inr h
      · rintro (h | h)
        · exact absurd h.symm hk
        · exact h

theorem find_eq_none_iff [LinearOrder K] (m : Map K V) (k : K) :
    find m k = none ↔ k ∉ m.map Prod.fst := by
  rw [← find_isSome_iff]
  cases find m k <;> simp

theorem mem_of_find_eq_some [LinearOrder K] (m : Map K V) (k : K) (v : V)
    (h : find m k = some v) : (k, v) ∈ m := by
  induction m with
  | nil => simp [find] at h
  | cons hd tl ih =>
    obtain ⟨k', v'⟩ := hd
    by_cases hk : k' = k
    · simp only [find, hk, if_true, Option.some.injEq] at h
      subst hk; subst h
      exact List.mem_cons_self _ _
    · simp only [find, hk, if_false] at h
      exact List.mem_cons_of_mem _ (ih h)

theorem WF.tail [LT K] {hd : K × V} {tl : Map K V} (h : WF (hd :: tl)) : WF tl :=
  (List.pairwise_cons.1 h).2

theorem WF.head_lt [LT K] {hd : K × V} {tl : Map K V} (h : WF (hd :: tl)) :
    ∀ kv ∈ tl, hd.1 < kv.1 :=
  (List.pairwise_cons.1 h).1

theorem find_eq_some_of_mem [LinearOrder K] (m : Map K V) (hm : WF m) (k : K) (v : V)
    (h : (k, v) ∈ m) : find m k = some v := by
  induction m with
  | nil => simp at h
  | cons hd tl ih =>
    obtain ⟨k', v'⟩ := hd
    rcases List.mem_cons.1 h with h1 | h1
    · simp only [Prod.mk.injEq] at h1
      simp [find, h1.1, h1.2]
    · have hlt : k' < k := hm.head_lt (k, v) h1
      simp only [find, ne_of_lt hlt, if_false]
      exact ih hm.tail h1

theorem find_eq_some_iff [LinearOrder K] (m : Map K V) (hm : WF m) (k : K) (v : V) :
    find m k = some v ↔ (k, v) ∈ m :=
  ⟨mem_of_find_eq_some m k v, find_eq_some_of_mem m hm k v⟩

theorem mem_update [LinearOrder K] (d : V) (f : V → V) (k : K) (m : Map K V)
    (kv : K × V) (h : kv ∈ update d f k m) : kv.1 = k ∨ kv.1 ∈ m.map Prod.fst := by
  induction m with
  | nil =>
    simp only [update, List.mem_singleton] at h
    exact Or.inl (by rw [h])
  | cons hd tl ih =>
    obtain ⟨k', v'⟩ := hd
    simp only [update] at h
    split_ifs at h with h1 h2
    · rcases List.mem_cons.1 h with h3 | h3
      · exact Or.inl (by rw [h3])
      · exact Or.inr (List.mem_map_of_mem Prod.fst h3)
    · rcases List.mem_cons.1 h with h3 | h3
      · exact Or.inl (by rw [h3, h2])
      · exact Or.inr (List.mem_cons_of_mem _ (List.mem_map_of_mem Prod.fst h3))
    · rcases List.mem_cons.1 h with h3 | h3
      · exact Or.inr (by rw [h3]; exact List.mem_cons_self _ _)
      · rcases ih h3 with h4 | h4
        · exact Or.inl h4
        · exact Or.inr (List.mem_cons_of_mem _ h4)

theorem update_WF [LinearOrder K] (d : V) (f : V → V) (k : K) (m : Map K V) (hm : WF m) :
    WF (update d f k m) := by
  induction m with
  | nil => simp [update, WF]
  | cons hd tl ih =>
    obtain ⟨k', v'⟩ := hd
    simp only [update]
    split_ifs with h1 h2
    · refine List.pairwise_cons.2 ⟨?_, hm⟩
      intro kv hkv
      rcases List.mem_cons.1 hkv with h3 | h3
      · rw [h3]; exact h1
      · exact lt_trans h1 (hm.head_lt kv h3)
    · exact List.pairwise_cons.2 ⟨hm.head_lt, hm.tail⟩
    · refine List.pairwise_cons.2 ⟨?_, ih hm.tail⟩
      intro kv hkv
      rcases mem_update d f k tl kv hkv with h3 | h3
      · rw [h3]
        exact lt_of_le_of_ne (not_lt.1 h1) (Ne.symm h2)
      · obtain ⟨kv', hkv', he⟩ := List.mem_map.1 h3
        rw [← he]
        exact hm.head_lt kv' hkv'

theorem find_update [LinearOrder K] (d : V) (f : V → V) (k : K) (m : Map K V) (hm : WF m)
    (k' : K) :
    find (update d f k m) k' =
      if k' = k then some (f ((find m k).getD d)) else find m k' := by
  induction m with
  | nil =>
    by_cases h : k = k'
    · simp [update, find, h]
    · simp [update, find, h, Ne.symm h]
  | cons hd tl ih =>
    obtain ⟨k₀, v₀⟩ := hd
    simp only [update]
    by_cases h1 : k < k₀
    · have hn : find ((k₀, v₀) :: tl) k = none := by
        apply find_eq_none_of_forall_ne
        intro kv hkv
        rcases List.mem_cons.1 hkv with h | h
        · rw [h]; exact ne_of_gt h1
        · exact ne_of_gt (lt_trans h1 (hm.head_lt kv h))
      rw [if_pos h1, hn]
      by_cases h2 : k = k'
      · simp [find, h2]
      · simp [find, h2, Ne.symm h2]
    · rw [if_neg h1]
      by_cases h3 : k = k₀
      · subst h3
        rw [if_pos rfl]
        by_cases h4 : k = k'
        · simp [find, h4]
        · simp [find, h4, Ne.symm h4]
      · rw [if_neg h3]
        by_cases h5 : k₀ = k'
        · subst h5
          simp [find, Ne.symm h3]
        · simp only [find, h5, Ne.symm h3, if_false]
          exact ih hm.tail

theorem find_mapValues [LinearOrder K] (f : V → W) (m : Map K V) (k : K) :
    find (mapValues f m) k = (find m k).map f := by
  induction m with
  | nil => rfl
  | cons hd tl ih =>
    obtain ⟨k', v⟩ := hd
    by_cases hk : k' = k
    · simp [mapValues, find, hk]
    · simp only [mapValues, List.map_cons, find, hk, if_false]
      exact ih

theorem mapValues_WF [LT K] (f : V → W) (m : Map K V) (hm : WF m) : WF (mapValues f m) := by
  unfold WF mapValues
  rw [List.pairwise_map]
  exact hm

theorem keys_mapValues (f : V → W) (m : Map K V) :
    (mapValues f m).map Prod.fst = m.map Prod.fst := by
  simp [mapValues, List.map_map, Function.comp_def]

/-- Two well-formed maps with the same lookups are the same map. -/
theorem ext [LinearOrder K] (m₁ m₂ : Map K V) (h₁ : WF m₁) (h₂ : WF m₂)
    (h : ∀ k, find m₁ k = find m₂ k) : m₁ = m₂ := by
  induction m₁ generalizing m₂ with
  | nil =>
    cases m₂ with
    | nil => rfl
    | cons hd tl =>
      have := h hd.1
      simp [find] at this
  | cons hd tl ih =>
    obtain ⟨k₁, v₁⟩ := hd
    cases m₂ with
    | nil =>
      have := h k₁
      simp [find] at this
    | cons hd₂ tl₂ =>
      obtain ⟨k₂, v₂⟩ := hd₂
      have hk : k₁ = k₂ := by
        rcases lt_trichotomy k₁ k₂ with hlt | heq | hgt
        · exfalso
          have e1 := h k₁
          have e2 : find ((k₂, v₂) :: tl₂) k₁ = none := by
            apply find_eq_none_of_forall_ne
            intro kv hkv
            rcases List.mem_cons.1 hkv with h3 | h3
            · rw [h3]; exact ne_of_gt hlt
            · exact ne_of_gt (lt_trans hlt (h₂.head_lt kv h3))
          rw [e2] at e1
          simp [find] at e1
        · exact heq
        · exfalso
          have e1 := h k₂
          have e2 : find ((k₁, v₁) :: tl) k₂ = none := by
            apply find_eq_none_of_forall_ne
            intro kv hkv
            rcases List.mem_cons.1 hkv with h3 | h3
            · rw [h3]; exact ne_of_gt hgt
            · exact ne_of_gt (lt_trans hgt (h₁.head_lt kv h3))
          rw [e2] at e1
          simp [find] at e1
      subst hk
      have hv : v₁ = v₂ := by
        have e1 := h k₁
        simpa [find] using e1
      subst hv
      have htl : tl = tl₂ := by
        apply ih tl₂ h₁.tail h₂.tail
        intro k
        by_cases hk : k₁ = k
        · subst hk
          rw [find_eq_none_of_forall_ne tl k₁ (fun kv hkv => ne_of_gt (h₁.head_lt kv hkv)),
            find_eq_none_of_forall_ne tl₂ k₁ (fun kv hkv => ne_of_gt (h₂.head_lt kv hkv))]
        · have e1 := h k
          simpa [find, hk] using e1
      rw [htl]

/-- A loop that updates the entry `key x` with `g x` for the elements `x`
satisfying `p` keeps the map well-formed. -/
theorem foldl_update_WF [LinearOrder K] {α : Type} (d : V) (p : α → Prop) [DecidablePred p]
    (key : α → K) (g : α → V → V) (l : List α) (m : Map K V) (hm : WF m) :
    WF (l.foldl (fun m x => if p x then update d (g x) (key x) m else m) m) := by
  induction l generalizing m with
  | nil => exact hm
  | cons x xs ih =>
    rw [List.foldl_cons]
    apply ih
    split_ifs
    · exact update_WF d (g x) (key x) m hm
    · exact hm

/-- After such a loop the entry of `u` is the result of applying, in order, the
changes of the elements whose key is `u`. -/
theorem find_foldl_update [LinearOrder K] {α : Type} (d : V) (p : α → Prop) [DecidablePred p]
    (key : α → K) (g : α → V → V) (l : List α) (m : Map K V) (hm : WF m) (u : K) :
    find (l.foldl (fun m x => if p x then update d (g x) (key x) m else m) m) u =
      (l.filter (fun x => decide (p x ∧ key x = u))).foldl
        (fun o x => some (g x (o.getD d))) (find m u) := by
  induction l generalizing m with
  | nil => rfl
  | cons x xs ih =>
    rw [List.foldl_cons]
    by_cases hp : p x
    · rw [if_pos hp, ih _ (update_WF d (g x) (key x) m hm), find_update d (g x) (key x) m hm u]
      by_cases hk : key x = u
      · subst hk
        simp [List.filter_cons, hp]
      · simp [List.filter_cons, hk, Ne.symm hk]
    · rw [if_neg hp, ih _ hm]
      simp [List.filter_cons, hp]

theorem foldl_some_getD {α : Type} (d : V) (g : α → V → V) (L : List α) (o : Option V) :
    L.foldl (fun o x => some (g x (o.getD d))) o =
      if L.isEmpty then o else some (L.foldl (fun v x => g x v) (o.getD d)) := by
  induction L generalizing o with
  | nil => simp
  | cons x xs ih =>
    rw [List.foldl_cons, ih]
    cases xs with
    | nil => simp
    | cons y ys => simp

/-- The form of `find_foldl_update` for a loop `step` that starts from the empty
map, with the selection of the elements of key `u` written as `q`. -/
theorem find_foldl_step [LinearOrder K] {α : Type} (d : V) (p : α → Prop)
    [DecidablePred p] (key : α → K) (g : α → V → V) (step : Map K V → α → Map K V)
    (hstep : ∀ m x, step m x = if p x then update d (g x) (key x) m else m)
    (l : List α) (u : K) (q : α → Bool) (hq : ∀ x, q x = true ↔ (p x ∧ key x = u)) :
    find (l.foldl step []) u =
      if (l.filter q).isEmpty then none
      else some ((l.filter q).foldl (fun v x => g x v) d) := by
  have hs : step = fun m x => if p x then update d (g x) (key x) m else m := by
    funext m x; exact hstep m x
  have hq' : (fun x => decide (p x ∧ key x = u)) = q := by
    funext x
    rw [Bool.eq_iff_iff, hq x]
    simp
  rw [hs, find_foldl_update d p key g l [] List.Pairwise.nil u, foldl_some_getD, hq']
  rfl

theorem foldl_step_WF [LinearOrder K] {α : Type} (d : V) (p : α → Prop)
    [DecidablePred p] (key : α → K) (g : α → V → V) (step : Map K V → α → Map K V)
    (hstep : ∀ m x, step m x = if p x then update d (g x) (key x) m else m)
    (l : List α) : WF (l.foldl step []) := by
  have hs : step = fun m x => if p x then update d (g x) (key x) m else m := by
    funext m x; exact hstep m x
  rw [hs]
  exact foldl_update_WF d p key g l [] List.Pairwise.nil

/-- A loop whose body may fail but does not, on the elements of the list, is the
loop of the bodies' results. -/
theorem foldlM_eq_some_foldl {α σ : Type} (f : σ → α → Option σ) (g : σ → α → σ)
    (l : List α) (h : ∀ x ∈ l, ∀ s, f s x = some (g s x)) (s : σ) :
    l.foldlM f s = some (l.foldl g s) := by
  induction l generalizing s with
  | nil => rfl
  | cons x xs ih =>
    rw [List.foldlM_cons, h x (List.mem_cons_self _ _) s]
    exact ih (fun y hy => h y (List.mem_cons_of_mem _ hy)) (g s x)

/-- A result of a loop whose body either fails or acts as `g` is the result of
the loop of `g`. -/
theorem foldlM_some_eq_foldl {α σ : Type} (f : σ → α → Option σ) (g : σ → α → σ)
    (l : List α) (h : ∀ x ∈ l, ∀ s, f s x = none ∨ f s x = some (g s x)) (s r : σ)
    (hr : l.foldlM f s = some r) : r = l.foldl g s := by
  induction l generalizing s with
  | nil =>
    simp only [List.foldlM_nil] at hr
    exact (Option.some.inj hr).symm
  | cons x xs ih =>
    rw [List.foldlM_cons] at hr
    rcases h x (List.mem_cons_self _ _) s with h1 | h1
    · rw [h1] at hr
      simp at hr
    · rw [h1] at hr
      exact ih (fun y hy => h y (List.mem_cons_of_mem _ hy)) (g s x) hr

theorem WF.nodup_keys [LinearOrder K] (m : Map K V) (hm : WF m) : (m.map Prod.fst).Nodup := by
  unfold List.Nodup
  rw [List.pairwise_map]
  exact List.Pairwise.imp (fun h => ne_of_lt h) hm

/-- In a well-formed map the entries with a given key are the one `find` returns. -/
theorem filter_key_eq [LinearOrder K] (m : Map K V) (hm : WF m) (k : K)
    (q : K × V → Bool) (hq : ∀ kv, q kv = true ↔ kv.1 = k) :
    m.filter q =
      match find m k with
      | none => []
      | some v => [(k, v)] := by
  induction m with
  | nil => rfl
  | cons hd tl ih =>
    obtain ⟨k', v⟩ := hd
    by_cases hk : k' = k
    · subst hk
      have hnone : tl.filter q = [] := by
        rw [List.filter_eq_nil_iff]
        intro kv hkv
        rw [hq kv]
        exact ne_of_gt (hm.head_lt kv hkv)
      have hq1 : q (k', v) = true := (hq (k', v)).2 rfl
      simp [List.filter_cons, find, hnone, hq1]
    · have hq1 : ¬ q (k', v) = true := fun h => hk ((hq (k', v)).1 h)
      simp only [List.filter_cons, hq1, find, hk, if_false]
      exact ih hm.tail

end Map

theorem Stars_foldl_add {α : Type} (w : α → ℚ) (L : List α) (v : Stars) :
    L.foldl (fun (s : Stars) x =>
        ({ average_stars := s.average_stars + w x, count := s.count + 1 } : Stars)) v =
      { average_stars := v.average_stars + (L.map w).sum, count := v.count + (L.length : ℤ) } := by
  induction L generalizing v with
  | nil => simp
  | cons x xs ih =>
    rw [List.foldl_cons, ih]
    simp only [List.map_cons, List.sum_cons, List.length_cons, Nat.cast_add, Nat.cast_one,
      Stars.mk.injEq]
    constructor <;> ring

/-! ## LoadReviews -/

theorem LoadReviews_accumulate_eq (m : Map ReviewKey Stars) (r : ReviewRecord) :
    LoadReviews.accumulate m r =
      if (fun _ : ReviewRecord => True) r then
        Map.update {} ((fun (r : ReviewRecord) (value : Stars) =>
          ({ average_stars := value.average_stars + r.stars, count := value.count + 1 } : Stars)) r)
          (ReviewRecord.key r) m
      else m := by
  simp [LoadReviews.accumulate, ReviewRecord.key]

theorem LoadReviews_sums_WF (records : List ReviewRecord) :
    Map.WF (records.foldl LoadReviews.accumulate []) :=
  Map.foldl_step_WF _ _ _ _ _ LoadReviews_accumulate_eq records

theorem LoadReviews_find_sums (records : List ReviewRecord) (k : ReviewKey) :
    Map.find (records.foldl LoadReviews.accumulate []) k =
      if (recordsOf records k).isEmpty then none
      else some { average_stars := ((recordsOf records k).map (·.stars)).sum,
                  count := ((recordsOf records k).length : ℤ) } := by
  have h := Map.find_foldl_step _ _ _ _ _ LoadReviews_accumulate_eq records k
    (fun r => decide (r.key = k)) (by intro x; simp)
  rw [h, Stars_foldl_add]
  simp [recordsOf]

theorem LoadReviews_WF (records : List ReviewRecord) : Map.WF (LoadReviews records) :=
  Map.mapValues_WF _ _ (LoadReviews_sums_WF records)

theorem LoadReviews_find (records : List ReviewRecord) (k : ReviewKey) :
    Map.find (LoadReviews records) k =
      if (recordsOf records k).isEmpty then none
      else some { average_stars :=
                    ((recordsOf records k).map (·.stars)).sum / ((recordsOf records k).length : ℚ),
                  count := ((recordsOf records k).length : ℤ) } := by
  unfold LoadReviews
  rw [Map.find_mapValues, LoadReviews_find_sums]
  split_ifs
  · rfl
  · simp [Stars.divide]

theorem recordsOf_isEmpty_iff (records : List ReviewRecord) (k : ReviewKey) :
    (recordsOf records k).isEmpty = true ↔ ¬ ∃ r ∈ records, r.key = k := by
  unfold recordsOf
  rw [List.isEmpty_iff, List.filter_eq_nil_iff]
  simp

/-- C8: `LoadReviews` yields one entry per (business, user) pair of the input and
none for another pair; the entry's count is the number of records of the pair
(at least 1) and its average the sum of their ratings over that count; two
records of one pair with ratings r₁, r₂ give the single entry ((r₁+r₂)/2, 2). -/
theorem LoadReviews_one_entry_per_pair (records : List ReviewRecord) :
    ((LoadReviews records).map Prod.fst).Nodup ∧
    (∀ k : ReviewKey, k ∈ (LoadReviews records).map Prod.fst ↔ ∃ r ∈ records, r.key = k) ∧
    (∀ k s, (k, s) ∈ LoadReviews records →
      s.count = ((recordsOf records k).length : ℤ) ∧ 1 ≤ s.count ∧
      s.average_stars = ((recordsOf records k).map (·.stars)).sum / (s.count : ℚ)) ∧
    (∀ (b u : String) (r₁ r₂ : ℚ),
      LoadReviews [⟨b, u, r₁⟩, ⟨b, u, r₂⟩] = [(⟨b, u⟩, ⟨(r₁ + r₂) / 2, 2⟩)]) := by
  refine ⟨Map.WF.nodup_keys _ (LoadReviews_WF records), ?_, ?_, ?_⟩
  · intro k
    rw [← Map.find_isSome_iff, LoadReviews_find]
    by_cases h : (recordsOf records k).isEmpty = true
    · have h' := (recordsOf_isEmpty_iff records k).1 h
      simp [h, h']
    · have h' : ∃ r ∈ records, r.key = k := by
        by_contra hc
        exact h ((recordsOf_isEmpty_iff records k).2 hc)
      simp [h, h']
  · intro k s hks
    have hf := (Map.find_eq_some_iff _ (LoadReviews_WF records) k s).2 hks
    rw [LoadReviews_find] at hf
    by_cases h : (recordsOf records k).isEmpty = true
    · simp [h] at hf
    · simp only [h, Bool.false_eq_true, if_false, Option.some.injEq] at hf
      subst hf
      refine ⟨rfl, ?_, ?_⟩
      · have hne : recordsOf records k ≠ [] := by
          intro hc; apply h; simp [hc]
        have := List.length_pos.2 hne
        show (1 : ℤ) ≤ ((recordsOf records k).length : ℤ)
        exact_mod_cast this
      · simp
  · intro b u r₁ r₂
    simp [LoadReviews, LoadReviews.accumulate, Map.update, Map.mapValues, Stars.divide]

/-- C9: the aggregated table does not depend on the order of the raw records: a
permutation of the records, and in particular their reversal, gives the same table. -/
theorem LoadReviews_perm (records₁ records₂ : List ReviewRecord)
    (h : records₁.Perm records₂) :
    LoadReviews records₁ = LoadReviews records₂ ∧
      LoadReviews records₁.reverse = LoadReviews records₁ := by
  have key : ∀ l₁ l₂ : List ReviewRecord, l₁.Perm l₂ → LoadReviews l₁ = LoadReviews l₂ := by
    intro l₁ l₂ hp
    apply Map.ext _ _ (LoadReviews_WF l₁) (LoadReviews_WF l₂)
    intro k
    have hf : (recordsOf l₁ k).Perm (recordsOf l₂ k) := hp.filter _
    rw [LoadReviews_find, LoadReviews_find, hf.length_eq, (hf.map _).sum_eq]
    have he : (recordsOf l₁ k).isEmpty = (recordsOf l₂ k).isEmpty := by
      rw [Bool.eq_iff_iff, List.isEmpty_iff, List.isEmpty_iff]
      constructor
      · intro h1; rw [h1] at hf; exact hf.symm.eq_nil
      · intro h1; rw [h1] at hf; exact hf.eq_nil
    rw [he]
  exact ⟨key _ _ h, key _ _ (List.reverse_perm _)⟩

theorem LoadReviews_perm_witness :
    LoadReviews [⟨"B1", "U1", 5⟩, ⟨"B2", "U1", 3⟩, ⟨"B1", "U1", 2⟩] =
        LoadReviews [⟨"B1", "U1", 2⟩, ⟨"B1", "U1", 5⟩, ⟨"B2", "U1", 3⟩] ∧
      LoadReviews [⟨"B1", "U1", 5⟩, ⟨"B2", "U1", 3⟩, ⟨"B1", "U1", 2⟩].reverse =
        LoadReviews [⟨"B1", "U1", 5⟩, ⟨"B2", "U1", 3⟩, ⟨"B1", "U1", 2⟩] :=
  LoadReviews_perm _ _ (by decide)

/-! ## ComputeBusinessData -/

theorem ComputeBusinessData_accumulate_eq (m : Map String Stars) (kv : ReviewKey × Stars) :
    ComputeBusinessData.accumulate m kv =
      if (fun _ : ReviewKey × Stars => True) kv then
        Map.update {} ((fun (kv : ReviewKey × Stars) (stars : Stars) =>
          ({ average_stars := stars.average_stars + kv.2.average_stars,
             count := stars.count + 1 } : Stars)) kv)
          ((fun kv : ReviewKey × Stars => kv.1.business_id) kv) m
      else m := by
  simp [ComputeBusinessData.accumulate]

theorem ComputeBusinessData_WF (reviews : Map ReviewKey Stars) :
    Map.WF (ComputeBusinessData reviews) :=
  Map.mapValues_WF _ _
    (Map.foldl_step_WF _ _ _ _ _ ComputeBusinessData_accumulate_eq reviews)

theorem ComputeBusinessData_find (reviews : Map ReviewKey Stars) (b : String) :
    Map.find (ComputeBusinessData reviews) b =
      if (reviewsOfBusiness reviews b).isEmpty then none
      else some
        { average_stars :=
            ((reviewsOfBusiness reviews b).map (·.2.average_stars)).sum /
              ((reviewsOfBusiness reviews b).length : ℚ),
          count := ((reviewsOfBusiness reviews b).length : ℤ) } := by
  unfold ComputeBusinessData
  have h := Map.find_foldl_step _ _ _ _ _ ComputeBusinessData_accumulate_eq reviews b
    (fun kv => decide (kv.1.business_id = b)) (by intro x; simp)
  rw [Map.find_mapValues, h, Stars_foldl_add]
  unfold reviewsOfBusiness
  split_ifs
  · rfl
  · simp [Stars.divide]

theorem reviewsOfBusiness_isEmpty_iff (reviews : Map ReviewKey Stars) (b : String) :
    (reviewsOfBusiness reviews b).isEmpty = true ↔
      b ∉ reviews.map (fun kv => kv.1.business_id) := by
  unfold reviewsOfBusiness
  rw [List.isEmpty_iff, List.filter_eq_nil_iff]
  simp

/-- Every business of the review table has an entry in `ComputeBusinessData`. -/
theorem ComputeBusinessData_covers (reviews : Map ReviewKey Stars) :
    ∀ kv ∈ reviews, (Map.find (ComputeBusinessData reviews) kv.1.business_id).isSome = true := by
  intro kv hkv
  rw [ComputeBusinessData_find]
  have h : ¬ (reviewsOfBusiness reviews kv.1.business_id).isEmpty = true := by
    rw [reviewsOfBusiness_isEmpty_iff]
    intro hc
    exact hc (List.mem_map_of_mem (fun kv => kv.1.business_id) hkv)
  simp [h]

/-- C10: `ComputeBusinessData` has an entry for exactly the businesses of the review
table (one each); the entry's count is the number of table entries of the business
and its average the sum of their `average_stars` over that count. -/
theorem ComputeBusinessData_mean (reviews : Map ReviewKey Stars) :
    ((ComputeBusinessData reviews).map Prod.fst).Nodup ∧
    (∀ b : String, b ∈ (ComputeBusinessData reviews).map Prod.fst ↔
      b ∈ reviews.map (fun kv => kv.1.business_id)) ∧
    (∀ b s, (b, s) ∈ ComputeBusinessData reviews →
      s.count = ((reviewsOfBusiness reviews b).length : ℤ) ∧
      s.average_stars =
        ((reviewsOfBusiness reviews b).map (·.2.average_stars)).sum / (s.count : ℚ)) := by
  refine ⟨Map.WF.nodup_keys _ (ComputeBusinessData_WF reviews), ?_, ?_⟩
  · intro b
    rw [← Map.find_isSome_iff, ComputeBusinessData_find]
    by_cases h : (reviewsOfBusiness reviews b).isEmpty = true
    · have h' := (reviewsOfBusiness_isEmpty_iff reviews b).1 h
      simp only [h, if_true, Option.isSome_none, Bool.false_eq_true, false_iff]
      exact h'
    · have h' : b ∈ reviews.map (fun kv => kv.1.business_id) := by
        by_contra hc
        exact h ((reviewsOfBusiness_isEmpty_iff reviews b).2 hc)
      simp only [h, Bool.false_eq_true, if_false, Option.isSome_some, true_iff]
      exact h'
  · intro b s hbs
    have hf := (Map.find_eq_some_iff _ (ComputeBusinessData_WF reviews) b s).2 hbs
    rw [ComputeBusinessData_find] at hf
    by_cases h : (reviewsOfBusiness reviews b).isEmpty = true
    · simp [h] at hf
    · simp only [h, Bool.false_eq_true, if_false, Option.some.injEq] at hf
      subst hf
      exact ⟨rfl, by simp⟩

/-! ## MatchScore -/

/-- C6: for reviews_in_common ≥ 0 and total_error ≥ 0, a larger total_error gives
a strictly smaller match score, and more reviews in common give a strictly larger
match score. -/
theorem MatchScore_strictly_monotone (n₁ n₂ : ℤ) (e₁ e₂ : ℚ) (hn : 0 ≤ n₁) (he : 0 ≤ e₁) :
    (e₁ < e₂ →
      CommonReviewer.MatchScore ⟨e₂, n₁⟩ < CommonReviewer.MatchScore ⟨e₁, n₁⟩) ∧
    (n₁ < n₂ →
      CommonReviewer.MatchScore ⟨e₁, n₁⟩ < CommonReviewer.MatchScore ⟨e₁, n₂⟩) := by
  have hn' : (0 : ℚ) ≤ (n₁ : ℚ) := by exact_mod_cast hn
  constructor
  · intro h
    unfold CommonReviewer.MatchScore
    simp only
    have h1 : (0 : ℚ) < e₁ + 2 := by linarith
    have h2 : (0 : ℚ) < (n₁ : ℚ) + 2 := by linarith
    have h3 : ((n₁ : ℚ) + 2) / (e₂ + 2) < ((n₁ : ℚ) + 2) / (e₁ + 2) :=
      div_lt_div_of_pos_left h2 h1 (by linarith)
    linarith
  · intro h
    unfold CommonReviewer.MatchScore
    simp only
    have h1 : (0 : ℚ) < e₁ + 2 := by linarith
    have h2 : (n₁ : ℚ) < (n₂ : ℚ) := by exact_mod_cast h
    have h3 : ((n₁ : ℚ) + 2) / (e₁ + 2) < ((n₂ : ℚ) + 2) / (e₁ + 2) :=
      div_lt_div_of_pos_right (by linarith) h1
    linarith

theorem MatchScore_strictly_monotone_witness :
    CommonReviewer.MatchScore ⟨1, 1⟩ < CommonReviewer.MatchScore ⟨0, 1⟩ ∧
      CommonReviewer.MatchScore ⟨0, 1⟩ < CommonReviewer.MatchScore ⟨0, 2⟩ :=
  ⟨(MatchScore_strictly_monotone 1 2 0 1 (by decide) (le_refl 0)).1 (by norm_num),
   (MatchScore_strictly_monotone 1 2 0 1 (by decide) (le_refl 0)).2 (by decide)⟩

theorem CommonReviewer_foldl_add {α : Type} (w : α → ℚ) (L : List α) (v : CommonReviewer) :
    L.foldl (fun (c : CommonReviewer) x =>
        ({ total_error := c.total_error + w x,
           reviews_in_common := c.reviews_in_common + 1 } : CommonReviewer)) v =
      { total_error := v.total_error + (L.map w).sum,
        reviews_in_common := v.reviews_in_common + (L.length : ℤ) } := by
  induction L generalizing v with
  | nil => simp
  | cons x xs ih =>
    rw [List.foldl_cons, ih]
    simp only [List.map_cons, List.sum_cons, List.length_cons, Nat.cast_add, Nat.cast_one,
      CommonReviewer.mk.injEq]
    constructor <;> ring

/-- The first loop of `FindCommonReviewers` without its `assert`. -/
theorem FindCommonReviewers_collect_total (user_id : String) (l : List (ReviewKey × Stars))
    (hl : l.Pairwise (fun a b => a.1 ≠ b.1)) (m : Map String ℚ) (hm : Map.WF m)
    (hfresh : ∀ kv ∈ l, kv.1.user_id = user_id → Map.find m kv.1.business_id = none) :
    l.foldlM (FindCommonReviewers.collect user_id) m =
      some (l.foldl (fun m kv =>
        if kv.1.user_id = user_id then
          Map.update 0 (fun _ => kv.2.average_stars) kv.1.business_id m
        else m) m) := by
  induction l generalizing m with
  | nil => rfl
  | cons kv xs ih =>
    rw [List.foldlM_cons, List.foldl_cons]
    have hxs := (List.pairwise_cons.1 hl).2
    have hne := (List.pairwise_cons.1 hl).1
    by_cases hu : kv.1.user_id = user_id
    · have h0 := hfresh kv (List.mem_cons_self _ _) hu
      have hc : FindCommonReviewers.collect user_id m kv =
          some (Map.update 0 (fun _ => kv.2.average_stars) kv.1.business_id m) := by
        simp [FindCommonReviewers.collect, hu, h0]
      rw [hc, if_pos hu]
      apply ih hxs _ (Map.update_WF _ _ _ _ hm)
      intro kv' hkv' hu'
      rw [Map.find_update _ _ _ _ hm]
      have hb : kv'.1.business_id ≠ kv.1.business_id := by
        intro hb
        apply hne kv' hkv'
        cases hk : kv.1 with
        | mk b₁ u₁ =>
          cases hk' : kv'.1 with
          | mk b₂ u₂ =>
            rw [hk] at hu hb; rw [hk'] at hu' hb
            simp only at hu hu' hb
            rw [hu, hu', hb]
      rw [if_neg hb]
      exact hfresh kv' (List.mem_cons_of_mem _ hkv') hu'
    · have hc : FindCommonReviewers.collect user_id m kv = some m := by
        simp [FindCommonReviewers.collect, hu]
      rw [hc, if_neg hu]
      exact ih hxs m hm (fun kv' hkv' => hfresh kv' (List.mem_cons_of_mem _ hkv'))

/-- The first loop of `FindCommonReviewers` returns the target user's rating of
each business the target user reviewed. -/
theorem FindCommonReviewers_collect_spec (user_id : String) (reviews : Map ReviewKey Stars)
    (hwf : Map.WF reviews) :
    ∃ rb : Map String ℚ, reviews.foldlM (FindCommonReviewers.collect user_id) [] = some rb ∧
      ∀ b, Map.find rb b =
        (Map.find reviews ⟨b, user_id⟩).map (fun s => s.average_stars) := by
  refine ⟨_, FindCommonReviewers_collect_total user_id reviews
    (List.Pairwise.imp (fun h => ne_of_lt h) hwf) [] List.Pairwise.nil
    (fun _ _ _ => rfl), ?_⟩
  intro b
  have h := Map.find_foldl_step (0 : ℚ) (fun kv : ReviewKey × Stars => kv.1.user_id = user_id)
    (fun kv => kv.1.business_id) (fun kv _ => kv.2.average_stars)
    (fun m kv => if kv.1.user_id = user_id then
        Map.update 0 (fun _ => kv.2.average_stars) kv.1.business_id m else m)
    (fun _ _ => rfl) reviews b
    (fun kv => decide (kv.1 = (⟨b, user_id⟩ : ReviewKey)))
    (by
      rintro ⟨⟨b₁, u₁⟩, v⟩
      simp only [decide_eq_true_eq, ReviewKey.mk.injEq]
      exact ⟨fun h => ⟨h.2, h.1⟩, fun h => ⟨h.2, h.1⟩⟩)
  rw [h, Map.filter_key_eq reviews hwf ⟨b, user_id⟩ _ (by intro kv; simp)]
  cases hf : Map.find reviews ⟨b, user_id⟩ with
  | none => simp
  | some v => simp

theorem FindCommonReviewers_step_cases (reviews : Map ReviewKey Stars) (user_id : String)
    (businesses : Map String Stars) (rb : Map String ℚ)
    (hfind : ∀ b, Map.find rb b =
      (Map.find reviews ⟨b, user_id⟩).map (fun s => s.average_stars))
    (m : Map String CommonReviewer) (kv : ReviewKey × Stars) :
    (FindCommonReviewers.step businesses rb m kv = none ∧
      Map.find businesses kv.1.business_id = none) ∨
    FindCommonReviewers.step businesses rb m kv =
      some (FindCommonReviewers.accumulate reviews user_id m kv) := by
  have h2 := hfind kv.1.business_id
  unfold FindCommonReviewers.step FindCommonReviewers.accumulate rating
  rcases Option.eq_none_or_eq_some (Map.find reviews ⟨kv.1.business_id, user_id⟩) with
    hf | ⟨s, hf⟩
  · rw [hf] at h2
    right
    simp [hf, h2]
  · rw [hf] at h2
    rcases Option.eq_none_or_eq_some (Map.find businesses kv.1.business_id) with
      hf2 | ⟨bs, hf2⟩
    · left
      simp [h2, hf2]
    · right
      simp [hf, h2, hf2]

theorem FindCommonReviewers_accumulate_eq (reviews : Map ReviewKey Stars) (user_id : String)
    (m : Map String CommonReviewer) (kv : ReviewKey × Stars) :
    FindCommonReviewers.accumulate reviews user_id m kv =
      if (fun kv : ReviewKey × Stars =>
          (Map.find reviews ⟨kv.1.business_id, user_id⟩).isSome = true) kv then
        Map.update {} ((fun (kv : ReviewKey × Stars) (cr : CommonReviewer) =>
            ({ total_error := cr.total_error +
                 |rating reviews kv.1.business_id user_id - kv.2.average_stars|,
               reviews_in_common := cr.reviews_in_common + 1 } : CommonReviewer)) kv)
          ((fun kv : ReviewKey × Stars => kv.1.user_id) kv) m
      else m := rfl

/-- A table `FindCommonReviewers` returns from an empty one, entry by entry: the
entry of `u` sums over the reviews by `u` of businesses the target reviewed. -/
theorem FindCommonReviewers_find_of_some (reviews : Map ReviewKey Stars)
    (hwf : Map.WF reviews) (users : Map String Delta) (businesses : Map String Stars)
    (user_id : String) (cr : Map String CommonReviewer)
    (hcr : FindCommonReviewers [] user_id users businesses reviews = some cr) :
    Map.WF cr ∧
      ∀ u, Map.find cr u =
        if (sharedReviews reviews user_id u).isEmpty then none
        else some
          { total_error := ((sharedReviews reviews user_id u).map (fun kv =>
              |rating reviews kv.1.business_id user_id - kv.2.average_stars|)).sum,
            reviews_in_common := ((sharedReviews reviews user_id u).length : ℤ) } := by
  obtain ⟨rb, hrb, hfind⟩ := FindCommonReviewers_collect_spec user_id reviews hwf
  unfold FindCommonReviewers at hcr
  rw [hrb, Option.some_bind] at hcr
  have heq := Map.foldlM_some_eq_foldl _ (FindCommonReviewers.accumulate reviews user_id)
    reviews (fun kv _ m => by
      rcases FindCommonReviewers_step_cases reviews user_id businesses rb hfind m kv with h | h
      · exact Or.inl h.1
      · exact Or.inr h) [] cr hcr
  rw [heq]
  refine ⟨Map.foldl_step_WF _ _ _ _ _
    (FindCommonReviewers_accumulate_eq reviews user_id) reviews, ?_⟩
  intro u
  have h := Map.find_foldl_step _ _ _ _ _
    (FindCommonReviewers_accumulate_eq reviews user_id) reviews u
    (fun kv => decide (kv.1.user_id = u) &&
      (Map.find reviews ⟨kv.1.business_id, user_id⟩).isSome)
    (by
      intro kv
      simp only [Bool.and_eq_true, decide_eq_true_eq]
      exact ⟨fun h => ⟨h.2, h.1⟩, fun h => ⟨h.2, h.1⟩⟩)
  rw [h, CommonReviewer_foldl_add]
  unfold sharedReviews
  split_ifs
  · rfl
  · simp

/-- With every reviewed business in the business table no `assert` of
`FindCommonReviewers` fails. -/
theorem FindCommonReviewers_returns (reviews : Map ReviewKey Stars) (hwf : Map.WF reviews)
    (users : Map String Delta) (businesses : Map String Stars)
    (hb : ∀ kv ∈ reviews, (Map.find businesses kv.1.business_id).isSome = true)
    (user_id : String) (common_reviewers : Map String CommonReviewer) :
    ∃ cr : Map String CommonReviewer,
      FindCommonReviewers common_reviewers user_id users businesses reviews = some cr := by
  obtain ⟨rb, hrb, hfind⟩ := FindCommonReviewers_collect_spec user_id reviews hwf
  refine ⟨reviews.foldl (FindCommonReviewers.accumulate reviews user_id) common_reviewers, ?_⟩
  unfold FindCommonReviewers
  rw [hrb, Option.some_bind]
  apply Map.foldlM_eq_some_foldl _ _ reviews
  intro kv hkv m
  rcases FindCommonReviewers_step_cases reviews user_id businesses rb hfind m kv with h | h
  · have h1 := hb kv hkv
    rw [h.2] at h1
    simp at h1
  · exact h

/-- The two facts above together. -/
theorem FindCommonReviewers_table (reviews : Map ReviewKey Stars) (hwf : Map.WF reviews)
    (users : Map String Delta) (businesses : Map String Stars)
    (hb : ∀ kv ∈ reviews, (Map.find businesses kv.1.business_id).isSome = true)
    (user_id : String) :
    ∃ cr : Map String CommonReviewer,
      FindCommonReviewers [] user_id users businesses reviews = some cr ∧ Map.WF cr ∧
      ∀ u, Map.find cr u =
        if (sharedReviews reviews user_id u).isEmpty then none
        else some
          { total_error := ((sharedReviews reviews user_id u).map (fun kv =>
              |rating reviews kv.1.business_id user_id - kv.2.average_stars|)).sum,
            reviews_in_common := ((sharedReviews reviews user_id u).length : ℤ) } := by
  obtain ⟨cr, hcr⟩ := FindCommonReviewers_returns reviews hwf users businesses hb user_id []
  exact ⟨cr, hcr, FindCommonReviewers_find_of_some reviews hwf users businesses user_id cr hcr⟩

theorem key_eq_of_user (kv : ReviewKey × Stars) (u : String) (h : kv.1.user_id = u) :
    (⟨kv.1.business_id, u⟩ : ReviewKey) = kv.1 := by
  obtain ⟨⟨b, u'⟩, v⟩ := kv
  simp only at h
  rw [h]

theorem hasReview_iff_find (reviews : Map ReviewKey Stars) (b u : String) :
    hasReview reviews b u ↔ (Map.find reviews ⟨b, u⟩).isSome = true := by
  unfold hasReview
  rw [Map.find_isSome_iff]

theorem mem_sharedReviews (reviews : Map ReviewKey Stars) (target u : String)
    (kv : ReviewKey × Stars) :
    kv ∈ sharedReviews reviews target u ↔
      kv ∈ reviews ∧ kv.1.user_id = u ∧ hasReview reviews kv.1.business_id target := by
  unfold sharedReviews
  rw [List.mem_filter, hasReview_iff_find]
  simp

theorem rating_of_mem (reviews : Map ReviewKey Stars) (hwf : Map.WF reviews)
    (kv : ReviewKey × Stars) (hkv : kv ∈ reviews) (u : String) (hu : kv.1.user_id = u) :
    rating reviews kv.1.business_id u = kv.2.average_stars := by
  unfold rating
  rw [key_eq_of_user kv u hu, Map.find_eq_some_of_mem reviews hwf kv.1 kv.2 hkv]

theorem sharedReviews_businesses_nodup (reviews : Map ReviewKey Stars) (hwf : Map.WF reviews)
    (target u : String) :
    ((sharedReviews reviews target u).map (fun kv => kv.1.business_id)).Nodup := by
  have hnd : (sharedReviews reviews target u).Nodup :=
    List.Nodup.filter _ (List.Nodup.of_map Prod.fst (Map.WF.nodup_keys reviews hwf))
  refine List.Nodup.map_on ?_ hnd
  intro x hx y hy hxy
  rw [mem_sharedReviews] at hx hy
  simp only at hxy
  have hkx := key_eq_of_user x u hx.2.1
  have hky := key_eq_of_user y u hy.2.1
  have hk : x.1 = y.1 := by rw [← hkx, ← hky, hxy]
  have h1 := Map.find_eq_some_of_mem reviews hwf x.1 x.2 hx.1
  have h2 := Map.find_eq_some_of_mem reviews hwf y.1 y.2 hy.1
  rw [hk, h2] at h1
  exact Prod.ext hk (Option.some.inj h1).symm

theorem sharedReviews_businesses_toFinset (reviews : Map ReviewKey Stars)
    (target u : String) :
    ((sharedReviews reviews target u).map (fun kv => kv.1.business_id)).toFinset =
      commonBusinesses reviews target u := by
  ext b
  unfold commonBusinesses
  rw [List.mem_toFinset, Finset.mem_filter, List.mem_toFinset, List.mem_map, List.mem_map]
  constructor
  · rintro ⟨kv, hkv, rfl⟩
    rw [mem_sharedReviews] at hkv
    refine ⟨⟨kv, hkv.1, rfl⟩, ?_, hkv.2.2⟩
    unfold hasReview
    rw [key_eq_of_user kv u hkv.2.1]
    exact List.mem_map_of_mem Prod.fst hkv.1
  · rintro ⟨_, hu, ht⟩
    unfold hasReview at hu
    obtain ⟨kv, hkv, hk⟩ := List.mem_map.1 hu
    refine ⟨kv, ?_, by rw [hk]⟩
    rw [mem_sharedReviews]
    refine ⟨hkv, by rw [hk], ?_⟩
    rw [hk]
    exact ht

/-- C1: started from an empty table, `FindCommonReviewers` returns a table when
every reviewed business is in the business table, and in every table it returns a
user sharing at least one business with the target has the number of shared
businesses as `reviews_in_common` and the sum over them of
|target's rating - user's rating| as `total_error`, and a user sharing none has no
entry. -/
theorem FindCommonReviewers_entries (reviews : Map ReviewKey Stars) (hwf : Map.WF reviews)
    (users : Map String Delta) (businesses : Map String Stars) (user_id : String) :
    ((∀ kv ∈ reviews, (Map.find businesses kv.1.business_id).isSome = true) →
      ∃ cr, FindCommonReviewers [] user_id users businesses reviews = some cr) ∧
    ∀ cr : Map String CommonReviewer,
      FindCommonReviewers [] user_id users businesses reviews = some cr →
      ∀ u : String,
        ((commonBusinesses reviews user_id u).Nonempty →
          Map.find cr u = some
            { total_error := ∑ b ∈ commonBusinesses reviews user_id u,
                |rating reviews b user_id - rating reviews b u|,
              reviews_in_common := ((commonBusinesses reviews user_id u).card : ℤ) }) ∧
        (commonBusinesses reviews user_id u = ∅ → Map.find cr u = none) := by
  refine ⟨fun hb => FindCommonReviewers_returns reviews hwf users businesses hb user_id [], ?_⟩
  intro cr hcr u
  obtain ⟨_, hfind⟩ :=
    FindCommonReviewers_find_of_some reviews hwf users businesses user_id cr hcr
  have hfs := sharedReviews_businesses_toFinset reviews user_id u
  have hnd := sharedReviews_businesses_nodup reviews hwf user_id u
  constructor
  · intro hne
    have hL : ¬ (sharedReviews reviews user_id u).isEmpty = true := by
      intro hc
      rw [List.isEmpty_iff] at hc
      rw [hc] at hfs
      rw [← hfs] at hne
      simp at hne
    rw [hfind u, if_neg hL, ← hfs, List.toFinset_card_of_nodup hnd, List.sum_toFinset _ hnd,
      List.length_map, List.map_map]
    congr 3
    apply List.map_congr_left
    intro kv hkv
    rw [mem_sharedReviews] at hkv
    simp only [Function.comp_apply]
    rw [rating_of_mem reviews hwf kv hkv.1 u hkv.2.1]
  · intro he
    have hL : (sharedReviews reviews user_id u).isEmpty = true := by
      rw [← hfs] at he
      rw [List.isEmpty_iff]
      have := (List.toFinset_eq_empty_iff _).1 he
      exact List.map_eq_nil_iff.1 this
    rw [hfind u, if_pos hL]

theorem FindCommonReviewers_entries_witness :
    Map.WF scenarioA ∧
    (∃ cr, FindCommonReviewers [] "U1" [] (ComputeBusinessData scenarioA) scenarioA =
      some cr) ∧
    ∀ u : String,
      ((commonBusinesses scenarioA "U1" u).Nonempty →
        Map.find scenarioA_reviewers u = some
          { total_error := ∑ b ∈ commonBusinesses scenarioA "U1" u,
              |rating scenarioA b "U1" - rating scenarioA b u|,
            reviews_in_common := ((commonBusinesses scenarioA "U1" u).card : ℤ) }) ∧
      (commonBusinesses scenarioA "U1" u = ∅ → Map.find scenarioA_reviewers u = none) :=
  ⟨by decide!,
    (FindCommonReviewers_entries scenarioA (by decide!) [] (ComputeBusinessData scenarioA)
      "U1").1 (by decide!),
    (FindCommonReviewers_entries scenarioA (by decide!) [] (ComputeBusinessData scenarioA)
      "U1").2 scenarioA_reviewers (by decide!)⟩

/-- C4, as stated, fails: with the single review (B1, U1, 5) and target U1 the
table is {U1 ↦ (0, 1)}, so the target is a key of its own table. -/
theorem FindCommonReviewers_target_is_key :
    FindCommonReviewers [] "U1" []
        (ComputeBusinessData [(⟨"B1", "U1"⟩, ⟨5, 1⟩)]) [(⟨"B1", "U1"⟩, ⟨5, 1⟩)] =
      some [("U1", ⟨0, 1⟩)] ∧
    "U1" ∈ ([("U1", ⟨0, 1⟩)] : Map String CommonReviewer).map Prod.fst := by
  constructor
  · decide!
  · decide

theorem sharedReviews_self (reviews : Map ReviewKey Stars) (user_id : String) :
    sharedReviews reviews user_id user_id =
      reviews.filter (fun kv => decide (kv.1.user_id = user_id)) := by
  unfold sharedReviews
  apply List.filter_congr
  intro kv hkv
  by_cases hu : kv.1.user_id = user_id
  · have h : (Map.find reviews ⟨kv.1.business_id, user_id⟩).isSome = true := by
      rw [Map.find_isSome_iff, key_eq_of_user kv user_id hu]
      exact List.mem_map_of_mem Prod.fst hkv
    simp [hu, h]
  · simp [hu]

/-- C4, amended: `FindCommonReviewers` returns a table when every reviewed business
is in the business table, and the target user is a key of a table it returns for
that target exactly when the target has at least one review in the review table. -/
theorem FindCommonReviewers_target_key_iff (reviews : Map ReviewKey Stars)
    (hwf : Map.WF reviews) (users : Map String Delta) (businesses : Map String Stars)
    (user_id : String) :
    ((∀ kv ∈ reviews, (Map.find businesses kv.1.business_id).isSome = true) →
      ∃ cr, FindCommonReviewers [] user_id users businesses reviews = some cr) ∧
    ∀ cr : Map String CommonReviewer,
      FindCommonReviewers [] user_id users businesses reviews = some cr →
      (user_id ∈ cr.map Prod.fst ↔ ∃ kv ∈ reviews, kv.1.user_id = user_id) := by
  refine ⟨fun hb => FindCommonReviewers_returns reviews hwf users businesses hb user_id [], ?_⟩
  intro cr hcr
  obtain ⟨_, hfind⟩ :=
    FindCommonReviewers_find_of_some reviews hwf users businesses user_id cr hcr
  rw [← Map.find_isSome_iff, hfind user_id, sharedReviews_self]
  by_cases h : (reviews.filter (fun kv => decide (kv.1.user_id = user_id))).isEmpty = true
  · rw [if_pos h]
    rw [List.isEmpty_iff, List.filter_eq_nil_iff] at h
    simp only [Option.isSome_none, Bool.false_eq_true, false_iff, not_exists, not_and]
    intro kv hkv hu
    exact h kv hkv (by simpa using hu)
  · rw [if_neg h]
    simp only [Option.isSome_some, true_iff]
    by_contra hc
    apply h
    rw [List.isEmpty_iff, List.filter_eq_nil_iff]
    intro kv hkv hu
    exact hc ⟨kv, hkv, by simpa using hu⟩

theorem FindCommonReviewers_target_key_iff_witness :
    Map.WF scenarioA ∧
    (∃ cr, FindCommonReviewers [] "U2" [] (ComputeBusinessData scenarioA) scenarioA =
      some cr) ∧
    ("U2" ∈ ([("U1", ⟨2, 1⟩), ("U2", ⟨0, 1⟩), ("U3", ⟨1, 1⟩)] :
        Map String CommonReviewer).map Prod.fst ↔
      ∃ kv ∈ scenarioA, kv.1.user_id = "U2") :=
  ⟨by decide!,
    (FindCommonReviewers_target_key_iff scenarioA (by decide!) []
      (ComputeBusinessData scenarioA) "U2").1 (by decide!),
    (FindCommonReviewers_target_key_iff scenarioA (by decide!) []
      (ComputeBusinessData scenarioA) "U2").2 [("U1", ⟨2, 1⟩), ("U2", ⟨0, 1⟩), ("U3", ⟨1, 1⟩)]
      (by decide!)⟩

/-! ## MakeBusinessSuggestions -/

theorem fold_total_delta (user_id : String) (kv : ReviewKey × Stars) (d m : ℚ)
    (s : BusinessSuggestion) :
    (MakeBusinessSuggestions.fold user_id kv d m s).total_delta = s.total_delta + d * m := by
  unfold MakeBusinessSuggestions.fold
  simp only
  split_ifs <;> rfl

theorem fold_total_match_scores (user_id : String) (kv : ReviewKey × Stars) (d m : ℚ)
    (s : BusinessSuggestion) :
    (MakeBusinessSuggestions.fold user_id kv d m s).total_match_scores =
      s.total_match_scores + m := by
  unfold MakeBusinessSuggestions.fold
  simp only
  split_ifs <;> rfl

theorem fold_num_references (user_id : String) (kv : ReviewKey × Stars) (d m : ℚ)
    (s : BusinessSuggestion) :
    (MakeBusinessSuggestions.fold user_id kv d m s).num_references = s.num_references + 1 := by
  unfold MakeBusinessSuggestions.fold
  simp only
  split_ifs <;> rfl

theorem fold_remove (user_id : String) (kv : ReviewKey × Stars) (d m : ℚ)
    (s : BusinessSuggestion) :
    (MakeBusinessSuggestions.fold user_id kv d m s).remove =
      (s.remove || decide (kv.1.user_id = user_id)) := by
  unfold MakeBusinessSuggestions.fold
  simp only
  split_ifs <;> simp [*]

theorem fold_positive_ref (user_id : String) (kv : ReviewKey × Stars) (d m : ℚ)
    (s : BusinessSuggestion) :
    (MakeBusinessSuggestions.fold user_id kv d m s).positive_ref =
      if d * m > s.positive_ref.contrib then
        { reviewer_id := kv.1.user_id, reviewer_stars := kv.2.average_stars, contrib := d * m }
      else s.positive_ref := by
  unfold MakeBusinessSuggestions.fold
  simp only
  split_ifs <;> simp_all

theorem fold_negative_ref (user_id : String) (kv : ReviewKey × Stars) (d m : ℚ)
    (s : BusinessSuggestion) :
    (MakeBusinessSuggestions.fold user_id kv d m s).negative_ref =
      if d * m < s.negative_ref.contrib then
        { reviewer_id := kv.1.user_id, reviewer_stars := kv.2.average_stars, contrib := d * m }
      else s.negative_ref := by
  unfold MakeBusinessSuggestions.fold
  simp only
  split_ifs <;> simp_all

theorem MakeBusinessSuggestions_step_cases (user_id : String)
    (common_reviewers : Map String CommonReviewer) (businesses : Map String Stars)
    (m : Map String BusinessSuggestion) (kv : ReviewKey × Stars) :
    (MakeBusinessSuggestions.step user_id common_reviewers businesses m kv = none ∧
      Map.find businesses kv.1.business_id = none) ∨
    MakeBusinessSuggestions.step user_id common_reviewers businesses m kv =
      some (MakeBusinessSuggestions.accumulate user_id common_reviewers businesses m kv) := by
  unfold MakeBusinessSuggestions.step MakeBusinessSuggestions.accumulate qualifies scoreOf
    businessAverage
  rcases Option.eq_none_or_eq_some (Map.find common_reviewers kv.1.user_id) with
    hf | ⟨cr, hf⟩
  · right
    simp [hf]
  · rcases Option.eq_none_or_eq_some (Map.find businesses kv.1.business_id) with
      hf2 | ⟨bs, hf2⟩
    · left
      simp [hf, hf2]
    · right
      by_cases hms : cr.MatchScore ≤ 0
      · simp [hf, hf2, hms, not_lt.2 hms]
      · simp [hf, hf2, hms, not_le.1 hms]

theorem MakeBusinessSuggestions_accumulate_eq (user_id : String)
    (common_reviewers : Map String CommonReviewer) (businesses : Map String Stars)
    (m : Map String BusinessSuggestion) (kv : ReviewKey × Stars) :
    MakeBusinessSuggestions.accumulate user_id common_reviewers businesses m kv =
      if (fun kv : ReviewKey × Stars => qualifies common_reviewers kv = true) kv then
        Map.update {} ((fun (kv : ReviewKey × Stars) (s : BusinessSuggestion) =>
            MakeBusinessSuggestions.fold user_id kv
              (kv.2.average_stars - businessAverage businesses kv.1.business_id)
              (scoreOf common_reviewers kv) s) kv)
          ((fun kv : ReviewKey × Stars => kv.1.business_id) kv) m
      else m := rfl

/-- A table `MakeBusinessSuggestions` returns is the one its loop builds when no
`assert` fails. -/
theorem MakeBusinessSuggestions_eq_of_some (reviews : Map ReviewKey Stars)
    (businesses : Map String Stars) (common_reviewers : Map String CommonReviewer)
    (user_id : String) (sug : Map String BusinessSuggestion)
    (hsug : MakeBusinessSuggestions user_id common_reviewers businesses reviews = some sug) :
    sug = reviews.foldl
      (MakeBusinessSuggestions.accumulate user_id common_reviewers businesses) [] := by
  unfold MakeBusinessSuggestions at hsug
  refine Map.foldlM_some_eq_foldl _ _ reviews ?_ [] sug hsug
  intro kv _ m
  rcases MakeBusinessSuggestions_step_cases user_id common_reviewers businesses m kv with h | h
  · exact Or.inl h.1
  · exact Or.inr h

/-- The table `MakeBusinessSuggestions` returns, entry by entry: the entry of `b`
is the default suggestion changed by each qualifying review of `b` in turn. -/
theorem MakeBusinessSuggestions_find (reviews : Map ReviewKey Stars)
    (businesses : Map String Stars) (common_reviewers : Map String CommonReviewer)
    (user_id : String) (sug : Map String BusinessSuggestion)
    (hsug : MakeBusinessSuggestions user_id common_reviewers businesses reviews = some sug) :
    Map.WF sug ∧
      ∀ b, Map.find sug b =
        if (qualifyingReviews common_reviewers reviews b).isEmpty then none
        else some ((qualifyingReviews common_reviewers reviews b).foldl
          (fun s kv => MakeBusinessSuggestions.fold user_id kv
            (kv.2.average_stars - businessAverage businesses kv.1.business_id)
            (scoreOf common_reviewers kv) s) {}) := by
  rw [MakeBusinessSuggestions_eq_of_some reviews businesses common_reviewers user_id sug hsug]
  refine ⟨Map.foldl_step_WF _ _ _ _ _
    (MakeBusinessSuggestions_accumulate_eq user_id common_reviewers businesses) reviews, ?_⟩
  intro b
  have h := Map.find_foldl_step _ _ _ _ _
    (MakeBusinessSuggestions_accumulate_eq user_id common_reviewers businesses) reviews b
    (fun kv => decide (kv.1.business_id = b) && qualifies common_reviewers kv)
    (by
      intro kv
      simp only [Bool.and_eq_true, decide_eq_true_eq]
      exact ⟨fun h => ⟨h.2, h.1⟩, fun h => ⟨h.2, h.1⟩⟩)
  rw [h]
  rfl

/-- With every reviewed business in the business table no `assert` of
`MakeBusinessSuggestions` fails. -/
theorem MakeBusinessSuggestions_returns (reviews : Map ReviewKey Stars)
    (businesses : Map String Stars)
    (hb : ∀ kv ∈ reviews, (Map.find businesses kv.1.business_id).isSome = true)
    (common_reviewers : Map String CommonReviewer) (user_id : String) :
    ∃ sug : Map String BusinessSuggestion,
      MakeBusinessSuggestions user_id common_reviewers businesses reviews = some sug := by
  refine ⟨_, Map.foldlM_eq_some_foldl _
    (MakeBusinessSuggestions.accumulate user_id common_reviewers businesses) reviews ?_ []⟩
  intro kv hkv m
  rcases MakeBusinessSuggestions_step_cases user_id common_reviewers businesses m kv with h | h
  · have h1 := hb kv hkv
    rw [h.2] at h1
    simp at h1
  · exact h

/-- The two facts above together. -/
theorem MakeBusinessSuggestions_table (reviews : Map ReviewKey Stars)
    (businesses : Map String Stars)
    (hb : ∀ kv ∈ reviews, (Map.find businesses kv.1.business_id).isSome = true)
    (common_reviewers : Map String CommonReviewer) (user_id : String) :
    ∃ sug : Map String BusinessSuggestion,
      MakeBusinessSuggestions user_id common_reviewers businesses reviews = some sug ∧
      Map.WF sug ∧
      ∀ b, Map.find sug b =
        if (qualifyingReviews common_reviewers reviews b).isEmpty then none
        else some ((qualifyingReviews common_reviewers reviews b).foldl
          (fun s kv => MakeBusinessSuggestions.fold user_id kv
            (kv.2.average_stars - businessAverage businesses kv.1.business_id)
            (scoreOf common_reviewers kv) s) {}) := by
  obtain ⟨sug, hsug⟩ :=
    MakeBusinessSuggestions_returns reviews businesses hb common_reviewers user_id
  exact ⟨sug, hsug,
    MakeBusinessSuggestions_find reviews businesses common_reviewers user_id sug hsug⟩

theorem foldl_fold_sums (user_id : String) (d m : ReviewKey × Stars → ℚ)
    (L : List (ReviewKey × Stars)) (s : BusinessSuggestion) :
    (L.foldl (fun s kv => MakeBusinessSuggestions.fold user_id kv (d kv) (m kv) s)
        s).num_references = s.num_references + (L.length : ℤ) ∧
    (L.foldl (fun s kv => MakeBusinessSuggestions.fold user_id kv (d kv) (m kv) s)
        s).total_match_scores = s.total_match_scores + (L.map m).sum ∧
    (L.foldl (fun s kv => MakeBusinessSuggestions.fold user_id kv (d kv) (m kv) s)
        s).total_delta = s.total_delta + (L.map (fun kv => d kv * m kv)).sum := by
  induction L generalizing s with
  | nil => simp
  | cons x xs ih =>
    rw [List.foldl_cons]
    obtain ⟨h1, h2, h3⟩ := ih (MakeBusinessSuggestions.fold user_id x (d x) (m x) s)
    rw [h1, h2, h3, fold_num_references, fold_total_match_scores, fold_total_delta]
    simp only [List.length_cons, Nat.cast_add, Nat.cast_one, List.map_cons, List.sum_cons]
    refine ⟨by ring, by ring, by ring⟩

theorem qualifyingReviews_isEmpty_iff (common_reviewers : Map String CommonReviewer)
    (reviews : Map ReviewKey Stars) (b : String) :
    (qualifyingReviews common_reviewers reviews b).isEmpty = true ↔
      ¬ ∃ kv ∈ reviews, kv.1.business_id = b ∧
        ∃ cr, Map.find common_reviewers kv.1.user_id = some cr ∧ 0 < cr.MatchScore := by
  unfold qualifyingReviews
  rw [List.isEmpty_iff, List.filter_eq_nil_iff]
  constructor
  · rintro h ⟨kv, hkv, hkb, cr, hcr, hpos⟩
    apply h kv hkv
    simp [qualifies, hcr, hpos, hkb]
  · intro h kv hkv hq
    apply h
    simp only [Bool.and_eq_true, decide_eq_true_eq] at hq
    refine ⟨kv, hkv, hq.1, ?_⟩
    have h2 := hq.2
    unfold qualifies at h2
    rcases Option.eq_none_or_eq_some (Map.find common_reviewers kv.1.user_id) with
      hf | ⟨cr, hf⟩
    · simp [hf] at h2
    · refine ⟨cr, hf, ?_⟩
      simpa [hf] using h2

/-- C2: with every reviewed business in the business table,
`MakeBusinessSuggestions` has an entry for `b` exactly when some review of `b` is by
a user of the CommonReviewer table with match score > 0; in the entry,
`num_references` is the number of these qualifying reviews, `total_match_scores` the
sum of their users' match scores and `total_delta` the sum of their
(review.average_stars - business.average_stars) * match score. Other reviews are
not in these sums. -/
theorem MakeBusinessSuggestions_sums (reviews : Map ReviewKey Stars)
    (businesses : Map String Stars)
    (hb : ∀ kv ∈ reviews, (Map.find businesses kv.1.business_id).isSome = true)
    (common_reviewers : Map String CommonReviewer) (user_id : String) :
    ∃ sug : Map String BusinessSuggestion,
      MakeBusinessSuggestions user_id common_reviewers businesses reviews = some sug ∧
      ∀ b : String,
        ((Map.find sug b).isSome = true ↔
          ∃ kv ∈ reviews, kv.1.business_id = b ∧
            ∃ cr, Map.find common_reviewers kv.1.user_id = some cr ∧ 0 < cr.MatchScore) ∧
        (∀ s, Map.find sug b = some s →
          s.num_references = ((qualifyingReviews common_reviewers reviews b).length : ℤ) ∧
          s.total_match_scores =
            ((qualifyingReviews common_reviewers reviews b).map
              (scoreOf common_reviewers)).sum ∧
          s.total_delta =
            ((qualifyingReviews common_reviewers reviews b).map
              (contribOf common_reviewers businesses)).sum) := by
  obtain ⟨sug, hsug, _, hfind⟩ :=
    MakeBusinessSuggestions_table reviews businesses hb common_reviewers user_id
  refine ⟨sug, hsug, ?_⟩
  intro b
  have hq := qualifyingReviews_isEmpty_iff common_reviewers reviews b
  constructor
  · rw [hfind b]
    by_cases h : (qualifyingReviews common_reviewers reviews b).isEmpty = true
    · rw [if_pos h]
      simp only [Option.isSome_none, Bool.false_eq_true, false_iff]
      exact hq.1 h
    · rw [if_neg h]
      simp only [Option.isSome_some, true_iff]
      by_contra hc
      exact h (hq.2 hc)
  · intro s hs
    rw [hfind b] at hs
    by_cases h : (qualifyingReviews common_reviewers reviews b).isEmpty = true
    · rw [if_pos h] at hs
      exact absurd hs (by simp)
    · rw [if_neg h] at hs
      have hs' := Option.some.inj hs
      obtain ⟨h1, h2, h3⟩ := foldl_fold_sums user_id
        (fun kv => kv.2.average_stars - businessAverage businesses kv.1.business_id)
        (scoreOf common_reviewers) (qualifyingReviews common_reviewers reviews b) {}
      rw [hs'] at h1 h2 h3
      refine ⟨by simpa using h1, by simpa using h2, ?_⟩
      rw [h3]
      simp only [zero_add]
      rfl

theorem MakeBusinessSuggestions_sums_witness :
    (∀ kv ∈ scenarioA,
      (Map.find (ComputeBusinessData scenarioA) kv.1.business_id).isSome = true) ∧
    ∃ sug : Map String BusinessSuggestion,
      MakeBusinessSuggestions "U1" scenarioA_reviewers (ComputeBusinessData scenarioA)
        scenarioA = some sug ∧
      ∀ b : String,
        ((Map.find sug b).isSome = true ↔
          ∃ kv ∈ scenarioA, kv.1.business_id = b ∧
            ∃ cr, Map.find scenarioA_reviewers kv.1.user_id = some cr ∧ 0 < cr.MatchScore) ∧
        (∀ s, Map.find sug b = some s →
          s.num_references =
            ((qualifyingReviews scenarioA_reviewers scenarioA b).length : ℤ) ∧
          s.total_match_scores =
            ((qualifyingReviews scenarioA_reviewers scenarioA b).map
              (scoreOf scenarioA_reviewers)).sum ∧
          s.total_delta =
            ((qualifyingReviews scenarioA_reviewers scenarioA b).map
              (contribOf scenarioA_reviewers (ComputeBusinessData scenarioA))).sum) :=
  ⟨by decide!,
    MakeBusinessSuggestions_sums scenarioA (ComputeBusinessData scenarioA) (by decide!)
      scenarioA_reviewers "U1"⟩

/-- A running best: the value kept after a pass that replaces it on a strictly
larger measure is the start value when no element beats it, and otherwise the
first element of largest measure. -/
theorem running_best {α ρ : Type} (c : α → ℚ) (val : ρ → ℚ) (mk : α → ρ)
    (hmk : ∀ a, val (mk a) = c a) (L : List α) (r₀ : ρ) :
    ((∀ a ∈ L, c a ≤ val r₀) →
      L.foldl (fun r a => if c a > val r then mk a else r) r₀ = r₀) ∧
    ((∃ a ∈ L, val r₀ < c a) →
      ∃ pre a post, L = pre ++ a :: post ∧
        L.foldl (fun r a => if c a > val r then mk a else r) r₀ = mk a ∧
        val r₀ < c a ∧ (∀ x ∈ pre, c x < c a) ∧ (∀ x ∈ post, c x ≤ c a)) := by
  induction L generalizing r₀ with
  | nil => simp
  | cons x xs ih =>
    constructor
    · intro h
      have hx : ¬ c x > val r₀ := not_lt.2 (h x (List.mem_cons_self _ _))
      rw [List.foldl_cons, if_neg hx]
      exact (ih r₀).1 (fun a ha => h a (List.mem_cons_of_mem _ ha))
    · rintro ⟨a, ha, hlt⟩
      rw [List.foldl_cons]
      by_cases hx : c x > val r₀
      · rw [if_pos hx]
        by_cases hall : ∀ y ∈ xs, c y ≤ c x
        · refine ⟨[], x, xs, rfl, ?_, hx, by simp, hall⟩
          apply (ih (mk x)).1
          intro y hy
          rw [hmk]
          exact hall y hy
        · simp only [not_forall, not_le] at hall
          obtain ⟨y, hy, hxy⟩ := hall
          obtain ⟨pre, b, post, hL, hres, hb, hpre, hpost⟩ :=
            (ih (mk x)).2 ⟨y, hy, by rw [hmk]; exact hxy⟩
          rw [hmk] at hb
          refine ⟨x :: pre, b, post, by rw [hL]; rfl, hres, lt_trans hx hb, ?_, hpost⟩
          intro z hz
          rcases List.mem_cons.1 hz with h1 | h1
          · rw [h1]; exact hb
          · exact hpre z h1
      · rw [if_neg hx]
        have ha' : a ∈ xs := by
          rcases List.mem_cons.1 ha with h1 | h1
          · rw [h1] at hlt; exact absurd hlt hx
          · exact h1
        obtain ⟨pre, b, post, hL, hres, hb, hpre, hpost⟩ := (ih r₀).2 ⟨a, ha', hlt⟩
        refine ⟨x :: pre, b, post, by rw [hL]; rfl, hres, hb, ?_, hpost⟩
        intro z hz
        rcases List.mem_cons.1 hz with h1 | h1
        · rw [h1]; exact lt_of_le_of_lt (not_lt.1 hx) hb
        · exact hpre z h1

theorem foldl_fold_positive_ref (user_id : String) (d m : ReviewKey × Stars → ℚ)
    (L : List (ReviewKey × Stars)) (s : BusinessSuggestion) :
    (L.foldl (fun s kv => MakeBusinessSuggestions.fold user_id kv (d kv) (m kv) s)
        s).positive_ref =
      L.foldl (fun (r : Reference) kv =>
        if d kv * m kv > r.contrib then
          ({ reviewer_id := kv.1.user_id, reviewer_stars := kv.2.average_stars,
             contrib := d kv * m kv } : Reference)
        else r) s.positive_ref := by
  induction L generalizing s with
  | nil => rfl
  | cons x xs ih =>
    rw [List.foldl_cons, List.foldl_cons, ih, fold_positive_ref]

theorem foldl_fold_negative_ref (user_id : String) (d m : ReviewKey × Stars → ℚ)
    (L : List (ReviewKey × Stars)) (s : BusinessSuggestion) :
    (L.foldl (fun s kv => MakeBusinessSuggestions.fold user_id kv (d kv) (m kv) s)
        s).negative_ref =
      L.foldl (fun (r : Reference) kv =>
        if -(d kv * m kv) > -r.contrib then
          ({ reviewer_id := kv.1.user_id, reviewer_stars := kv.2.average_stars,
             contrib := d kv * m kv } : Reference)
        else r) s.negative_ref := by
  induction L generalizing s with
  | nil => rfl
  | cons x xs ih =>
    rw [List.foldl_cons, List.foldl_cons, ih, fold_negative_ref]
    congr 1
    by_cases h : d x * m x < s.negative_ref.contrib
    · rw [if_pos h, if_pos (neg_lt_neg h)]
    · rw [if_neg h, if_neg (fun hc => h (neg_lt_neg_iff.1 hc))]

/-- C5, as stated, fails: on `lowRatingTable` with target U1 the only qualifying
review of B1 is U1's, of contribution -1/2, and `positive_ref` is not that review
but the default `Reference`. -/
theorem MakeBusinessSuggestions_positive_ref_default :
    MakeBusinessSuggestions "U1" [("U1", ⟨0, 1⟩), ("U2", ⟨2, 1⟩)]
        (ComputeBusinessData lowRatingTable) lowRatingTable =
      some [("B1",
        { total_delta := -1 / 2, total_match_scores := 1 / 2, num_references := 1,
          remove := true, positive_ref := {},
          negative_ref := { reviewer_id := "U1", reviewer_stars := 3, contrib := -1 / 2 } })] ∧
    FindCommonReviewers [] "U1" [] (ComputeBusinessData lowRatingTable) lowRatingTable =
      some [("U1", ⟨0, 1⟩), ("U2", ⟨2, 1⟩)] ∧
    qualifyingReviews [("U1", ⟨0, 1⟩), ("U2", ⟨2, 1⟩)] lowRatingTable "B1" =
      [(⟨"B1", "U1"⟩, ⟨3, 1⟩)] ∧
    referenceOf [("U1", ⟨0, 1⟩), ("U2", ⟨2, 1⟩)] (ComputeBusinessData lowRatingTable)
        (⟨"B1", "U1"⟩, ⟨3, 1⟩) =
      { reviewer_id := "U1", reviewer_stars := 3, contrib := -1 / 2 } ∧
    ({} : Reference) ≠ { reviewer_id := "U1", reviewer_stars := 3, contrib := -1 / 2 } := by
  refine ⟨by decide!, by decide!, by decide!, by decide!, by decide!⟩

/-- C5, amended: `MakeBusinessSuggestions` returns a table when every reviewed
business is in the business table, and in every table it returns the entry of a
business has as `positive_ref` the qualifying review of highest contribution (the
first among equals) when some contribution is above 0 and the default `Reference`
otherwise, and as `negative_ref` the qualifying review of lowest contribution (the
first among equals) when some contribution is below 0 and the default `Reference`
otherwise. -/
theorem MakeBusinessSuggestions_references (reviews : Map ReviewKey Stars)
    (businesses : Map String Stars) (common_reviewers : Map String CommonReviewer)
    (user_id : String) :
    ((∀ kv ∈ reviews, (Map.find businesses kv.1.business_id).isSome = true) →
      ∃ sug, MakeBusinessSuggestions user_id common_reviewers businesses reviews = some sug) ∧
    ∀ (sug : Map String BusinessSuggestion) (b : String) (s : BusinessSuggestion),
      MakeBusinessSuggestions user_id common_reviewers businesses reviews = some sug →
      Map.find sug b = some s →
      ((∀ kv ∈ qualifyingReviews common_reviewers reviews b,
          contribOf common_reviewers businesses kv ≤ 0) → s.positive_ref = {}) ∧
      ((∃ kv ∈ qualifyingReviews common_reviewers reviews b,
          0 < contribOf common_reviewers businesses kv) →
        firstHighest (contribOf common_reviewers businesses)
          (referenceOf common_reviewers businesses)
          (qualifyingReviews common_reviewers reviews b) s.positive_ref) ∧
      ((∀ kv ∈ qualifyingReviews common_reviewers reviews b,
          0 ≤ contribOf common_reviewers businesses kv) → s.negative_ref = {}) ∧
      ((∃ kv ∈ qualifyingReviews common_reviewers reviews b,
          contribOf common_reviewers businesses kv < 0) →
        firstLowest (contribOf common_reviewers businesses)
          (referenceOf common_reviewers businesses)
          (qualifyingReviews common_reviewers reviews b) s.negative_ref) := by
  refine ⟨fun hb =>
    MakeBusinessSuggestions_returns reviews businesses hb common_reviewers user_id, ?_⟩
  intro sug b s hsug hs
  obtain ⟨_, hfind⟩ :=
    MakeBusinessSuggestions_find reviews businesses common_reviewers user_id sug hsug
  rw [hfind b] at hs
  by_cases h : (qualifyingReviews common_reviewers reviews b).isEmpty = true
  · rw [if_pos h] at hs
    exact absurd hs (by simp)
  rw [if_neg h] at hs
  have hs' := Option.some.inj hs
  have hpos := foldl_fold_positive_ref user_id
    (fun kv => kv.2.average_stars - businessAverage businesses kv.1.business_id)
    (scoreOf common_reviewers) (qualifyingReviews common_reviewers reviews b) {}
  have hneg := foldl_fold_negative_ref user_id
    (fun kv => kv.2.average_stars - businessAverage businesses kv.1.business_id)
    (scoreOf common_reviewers) (qualifyingReviews common_reviewers reviews b) {}
  rw [hs'] at hpos hneg
  have hP := running_best (contribOf common_reviewers businesses) Reference.contrib
    (referenceOf common_reviewers businesses) (fun _ => rfl)
    (qualifyingReviews common_reviewers reviews b) {}
  have hN := running_best (fun kv => -contribOf common_reviewers businesses kv)
    (fun r => -r.contrib) (referenceOf common_reviewers businesses) (fun _ => rfl)
    (qualifyingReviews common_reviewers reviews b) {}
  refine ⟨?_, ?_, ?_, ?_⟩
  · intro hall
    rw [hpos]
    exact hP.1 hall
  · intro hex
    obtain ⟨pre, kv, post, hQ, hres, _, hpre, hpost⟩ := hP.2 hex
    exact ⟨pre, kv, post, hQ, by rw [hpos]; exact hres, hpre, hpost⟩
  · intro hall
    rw [hneg]
    apply hN.1
    intro kv hkv
    have := hall kv hkv
    simp only [neg_zero, neg_nonpos]
    exact this
  · rintro ⟨kv, hkv, hlt⟩
    obtain ⟨pre, kv', post, hQ, hres, _, hpre, hpost⟩ :=
      hN.2 ⟨kv, hkv, by simp only [neg_zero]; exact neg_pos.2 hlt⟩
    refine ⟨pre, kv', post, hQ, by rw [hneg]; exact hres, ?_, ?_⟩
    · intro x hx
      exact neg_lt_neg_iff.1 (hpre x hx)
    · intro x hx
      exact neg_le_neg_iff.1 (hpost x hx)

theorem MakeBusinessSuggestions_references_witness :
    (∃ sug, MakeBusinessSuggestions "U1" scenarioA_reviewers (ComputeBusinessData scenarioA)
      scenarioA = some sug) ∧
    firstHighest (contribOf scenarioA_reviewers (ComputeBusinessData scenarioA))
      (referenceOf scenarioA_reviewers (ComputeBusinessData scenarioA))
      (qualifyingReviews scenarioA_reviewers scenarioA "B1")
      scenarioA_suggestion.positive_ref ∧
    scenarioA_suggestion.negative_ref = {} :=
  ⟨(MakeBusinessSuggestions_references scenarioA (ComputeBusinessData scenarioA)
      scenarioA_reviewers "U1").1 (by decide!),
    ((MakeBusinessSuggestions_references scenarioA (ComputeBusinessData scenarioA)
      scenarioA_reviewers "U1").2 [("B1", scenarioA_suggestion)] "B1" scenarioA_suggestion
      (by decide!) (by decide!)).2.1 ⟨(⟨"B1", "U1"⟩, ⟨5, 1⟩), by decide!, by decide!⟩,
    ((MakeBusinessSuggestions_references scenarioA (ComputeBusinessData scenarioA)
      scenarioA_reviewers "U1").2 [("B1", scenarioA_suggestion)] "B1" scenarioA_suggestion
      (by decide!) (by decide!)).2.2.1 (by decide!)⟩

/-! ## The composed pipeline -/

theorem ComputeUserData_returns (reviews : Map ReviewKey Stars) (businesses : Map String Stars)
    (hb : ∀ kv ∈ reviews, (Map.find businesses kv.1.business_id).isSome = true) :
    ∃ users, ComputeUserData businesses reviews = some users := by
  unfold ComputeUserData
  have h : ∀ (l : List (ReviewKey × Stars)) (m : Map String Delta),
      (∀ kv ∈ l, (Map.find businesses kv.1.business_id).isSome = true) →
      ∃ r, l.foldlM (ComputeUserData.accumulate businesses) m = some r := by
    intro l
    induction l with
    | nil => intro m _; exact ⟨m, rfl⟩
    | cons x xs ih =>
      intro m hl
      have hx := hl x (List.mem_cons_self _ _)
      rcases Option.eq_none_or_eq_some (Map.find businesses x.1.business_id) with
        hf | ⟨bs, hf⟩
      · rw [hf] at hx; simp at hx
      · rw [List.foldlM_cons]
        simp only [ComputeUserData.accumulate, hf]
        exact ih _ (fun kv hkv => hl kv (List.mem_cons_of_mem _ hkv))
  obtain ⟨r, hr⟩ := h reviews [] hb
  exact ⟨_, by rw [hr]; rfl⟩

/-- The target user's own entry: no error, and as many reviews in common as the
target has reviews. -/
theorem FindCommonReviewers_target_entry (reviews : Map ReviewKey Stars)
    (hwf : Map.WF reviews) (users : Map String Delta) (businesses : Map String Stars)
    (hb : ∀ kv ∈ reviews, (Map.find businesses kv.1.business_id).isSome = true)
    (user_id : String) (ht : ∃ kv ∈ reviews, kv.1.user_id = user_id) :
    ∃ cr : Map String CommonReviewer,
      FindCommonReviewers [] user_id users businesses reviews = some cr ∧
      Map.find cr user_id = some
        { total_error := 0,
          reviews_in_common :=
            ((reviews.filter (fun kv => decide (kv.1.user_id = user_id))).length : ℤ) } ∧
      1 ≤ (reviews.filter (fun kv => decide (kv.1.user_id = user_id))).length := by
  obtain ⟨cr, hcr, _, hfind⟩ := FindCommonReviewers_table reviews hwf users businesses hb user_id
  obtain ⟨kv₀, hkv₀, hu₀⟩ := ht
  have hmem : kv₀ ∈ reviews.filter (fun kv => decide (kv.1.user_id = user_id)) := by
    rw [List.mem_filter]
    exact ⟨hkv₀, by simpa using hu₀⟩
  have hne : ¬ (reviews.filter (fun kv => decide (kv.1.user_id = user_id))).isEmpty = true := by
    rw [List.isEmpty_iff]
    intro hc
    rw [hc] at hmem
    simp at hmem
  refine ⟨cr, hcr, ?_, ?_⟩
  · rw [hfind user_id, sharedReviews_self, if_neg hne]
    congr 2
    apply List.sum_eq_zero
    intro x hx
    obtain ⟨kv, hkv, rfl⟩ := List.mem_map.1 hx
    rw [List.mem_filter] at hkv
    rw [rating_of_mem reviews hwf kv hkv.1 user_id (by simpa using hkv.2)]
    simp
  · exact List.length_pos_of_mem hmem

theorem MatchScore_pos_of_no_error (n : ℤ) (hn : 1 ≤ n) :
    0 < CommonReviewer.MatchScore { total_error := 0, reviews_in_common := n } := by
  unfold CommonReviewer.MatchScore
  simp only
  have h : (1 : ℚ) ≤ (n : ℚ) := by exact_mod_cast hn
  have h2 : ((n : ℚ) + 2) / (0 + 2) - 1 = (n : ℚ) / 2 := by ring
  rw [h2]
  linarith

theorem foldl_fold_remove (user_id : String) (d m : ReviewKey × Stars → ℚ)
    (L : List (ReviewKey × Stars)) (s : BusinessSuggestion) :
    (L.foldl (fun s kv => MakeBusinessSuggestions.fold user_id kv (d kv) (m kv) s) s).remove =
      (s.remove || L.any (fun kv => decide (kv.1.user_id = user_id))) := by
  induction L generalizing s with
  | nil => simp
  | cons x xs ih =>
    rw [List.foldl_cons, ih, fold_remove, List.any_cons, Bool.or_assoc]

theorem PrintBusinessSuggestions_rows (user_id : String) (businesses : Map String Stars)
    (l : Map String BusinessSuggestion)
    (hcov : ∀ kv ∈ l, (Map.find businesses kv.1).isSome = true) (rows₀ : List SuggestionRow) :
    ∃ rows, l.foldlM (PrintBusinessSuggestions.step user_id businesses) rows₀ = some rows ∧
      ∀ row ∈ rows, row ∈ rows₀ ∨ ∃ kv ∈ l, kv.2.remove = false ∧ row.business_id = kv.1 := by
  induction l generalizing rows₀ with
  | nil => exact ⟨rows₀, rfl, fun row h => Or.inl h⟩
  | cons x xs ih =>
    have hxs : ∀ kv ∈ xs, (Map.find businesses kv.1).isSome = true :=
      fun kv hkv => hcov kv (List.mem_cons_of_mem _ hkv)
    rw [List.foldlM_cons]
    by_cases hr : x.2.remove = true
    · obtain ⟨rows, hrows, hmem⟩ := ih hxs rows₀
      refine ⟨rows, ?_, ?_⟩
      · simp only [PrintBusinessSuggestions.step, hr, if_true]
        exact hrows
      · intro row hrow
        rcases hmem row hrow with h | ⟨kv, hkv, h1, h2⟩
        · exact Or.inl h
        · exact Or.inr ⟨kv, List.mem_cons_of_mem _ hkv, h1, h2⟩
    · have hx := hcov x (List.mem_cons_self _ _)
      rcases Option.eq_none_or_eq_some (Map.find businesses x.1) with hf | ⟨bs, hf⟩
      · rw [hf] at hx; simp at hx
      · simp only [PrintBusinessSuggestions.step, hr, hf, Bool.false_eq_true, if_false]
        obtain ⟨rows, hrows, hmem⟩ := ih hxs (rows₀ ++ [{
          user_id := user_id
          business_id := x.1
          total_delta := x.2.total_delta
          num_references := x.2.num_references
          total_match_scores := x.2.total_match_scores
          business_count := bs.count
          business_average := bs.average_stars
          predicted_average := bs.average_stars + x.2.total_delta / x.2.total_match_scores
          reviewer_id :=
            (if x.2.total_delta ≥ 0 then x.2.positive_ref else x.2.negative_ref).reviewer_id
          reviewer_stars :=
            (if x.2.total_delta ≥ 0 then x.2.positive_ref else x.2.negative_ref).reviewer_stars
          reviewer_contrib :=
            (if x.2.total_delta ≥ 0 then x.2.positive_ref else x.2.negative_ref).contrib }])
        refine ⟨rows, hrows, ?_⟩
        intro row hrow
        rcases hmem row hrow with h | ⟨kv, hkv, h1, h2⟩
        · rcases List.mem_append.1 h with h3 | h3
          · exact Or.inl h3
          · rw [List.mem_singleton] at h3
            refine Or.inr ⟨x, List.mem_cons_self _ _, by simpa using hr, ?_⟩
            rw [h3]
        · exact Or.inr ⟨kv, List.mem_cons_of_mem _ hkv, h1, h2⟩

theorem mem_qualifyingReviews (common_reviewers : Map String CommonReviewer)
    (reviews : Map ReviewKey Stars) (b : String) (kv : ReviewKey × Stars) :
    kv ∈ qualifyingReviews common_reviewers reviews b ↔
      kv ∈ reviews ∧ kv.1.business_id = b ∧ qualifies common_reviewers kv = true := by
  unfold qualifyingReviews
  rw [List.mem_filter]
  simp

/-- C3: for the tables `main` builds from a review table, every business the
target user reviewed has a suggestion with `remove = true`, and the rows
`PrintBusinessSuggestions` prints contain no row of such a business. -/
theorem main_removes_reviewed_businesses (reviews : Map ReviewKey Stars)
    (hwf : Map.WF reviews) (user_id : String) :
    ∃ (suggestions : Map String BusinessSuggestion) (rows : List SuggestionRow),
      main_suggestions user_id reviews = some suggestions ∧
      main_suggest_businesses user_id reviews = some rows ∧
      ∀ b : String, hasReview reviews b user_id →
        (∃ s, Map.find suggestions b = some s ∧ s.remove = true) ∧
        ∀ row ∈ rows, row.business_id ≠ b := by
  have hb := ComputeBusinessData_covers reviews
  obtain ⟨users, husers⟩ := ComputeUserData_returns reviews (ComputeBusinessData reviews) hb
  obtain ⟨cr, hcr, _, _⟩ :=
    FindCommonReviewers_table reviews hwf users (ComputeBusinessData reviews) hb user_id
  obtain ⟨sug, hsug, hwfsug, hfind⟩ :=
    MakeBusinessSuggestions_table reviews (ComputeBusinessData reviews) hb cr user_id
  have hcov : ∀ kv ∈ sug, (Map.find (ComputeBusinessData reviews) kv.1).isSome = true := by
    intro kv hkv
    have h1 := Map.find_eq_some_of_mem sug hwfsug kv.1 kv.2 hkv
    rw [hfind kv.1] at h1
    by_cases hq : (qualifyingReviews cr reviews kv.1).isEmpty = true
    · rw [if_pos hq] at h1
      exact absurd h1 (by simp)
    · rw [List.isEmpty_iff] at hq
      obtain ⟨x, hx⟩ := List.exists_mem_of_ne_nil _ hq
      rw [mem_qualifyingReviews] at hx
      rw [← hx.2.1]
      exact hb x hx.1
  obtain ⟨rows, hrows, hmem⟩ :=
    PrintBusinessSuggestions_rows user_id (ComputeBusinessData reviews) sug hcov []
  have hmain : main_suggestions user_id reviews = some sug := by
    unfold main_suggestions
    simp only [husers, Option.some_bind, hcr, hsug]
  refine ⟨sug, rows, hmain, ?_, ?_⟩
  · unfold main_suggest_businesses
    rw [hmain, Option.some_bind]
    exact hrows
  · intro b hbt
    unfold hasReview at hbt
    obtain ⟨kv₀, hkv₀, hk₀⟩ := List.mem_map.1 hbt
    have hu₀ : kv₀.1.user_id = user_id := by rw [hk₀]
    have hb₀ : kv₀.1.business_id = b := by rw [hk₀]
    obtain ⟨cr', hcr', hentry, hlen⟩ := FindCommonReviewers_target_entry reviews hwf users
      (ComputeBusinessData reviews) hb user_id ⟨kv₀, hkv₀, hu₀⟩
    rw [hcr] at hcr'
    have hcreq := Option.some.inj hcr'
    subst hcreq
    have hqual : qualifies cr kv₀ = true := by
      unfold qualifies
      rw [hu₀, hentry]
      simp only [decide_eq_true_eq]
      exact MatchScore_pos_of_no_error _ (by exact_mod_cast hlen)
    have hq₀ : kv₀ ∈ qualifyingReviews cr reviews b :=
      (mem_qualifyingReviews cr reviews b kv₀).2 ⟨hkv₀, hb₀, hqual⟩
    have hne : ¬ (qualifyingReviews cr reviews b).isEmpty = true := by
      rw [List.isEmpty_iff]
      intro hc
      rw [hc] at hq₀
      simp at hq₀
    have hfb := hfind b
    rw [if_neg hne] at hfb
    have hrem := foldl_fold_remove user_id
      (fun kv => kv.2.average_stars -
        businessAverage (ComputeBusinessData reviews) kv.1.business_id)
      (scoreOf cr) (qualifyingReviews cr reviews b) {}
    have hany : (qualifyingReviews cr reviews b).any
        (fun kv => decide (kv.1.user_id = user_id)) = true := by
      rw [List.any_eq_true]
      exact ⟨kv₀, hq₀, by simpa using hu₀⟩
    rw [hany, Bool.or_true] at hrem
    refine ⟨⟨_, hfb, hrem⟩, ?_⟩
    intro row hrow hrowb
    rcases hmem row hrow with h | ⟨kv, hkv, h1, h2⟩
    · simp at h
    · have h3 := Map.find_eq_some_of_mem sug hwfsug kv.1 kv.2 hkv
      rw [← h2, hrowb, hfb] at h3
      have h4 := Option.some.inj h3
      rw [← h4, hrem] at h1
      simp at h1

theorem main_removes_reviewed_businesses_witness :
    Map.WF scenarioA ∧
    ∃ (suggestions : Map String BusinessSuggestion) (rows : List SuggestionRow),
      main_suggestions "U1" scenarioA = some suggestions ∧
      main_suggest_businesses "U1" scenarioA = some rows ∧
      ∀ b : String, hasReview scenarioA b "U1" →
        (∃ s, Map.find suggestions b = some s ∧ s.remove = true) ∧
        ∀ row ∈ rows, row.business_id ≠ b :=
  ⟨by decide!, main_removes_reviewed_businesses scenarioA (by decide!) "U1"⟩

/-! ## The entries of the suggestion table -/

theorem scoreOf_pos_of_qualifies (common_reviewers : Map String CommonReviewer)
    (kv : ReviewKey × Stars) (h : qualifies common_reviewers kv = true) :
    0 < scoreOf common_reviewers kv := by
  unfold qualifies at h
  unfold scoreOf
  rcases Option.eq_none_or_eq_some (Map.find common_reviewers kv.1.user_id) with
    hf | ⟨cr, hf⟩
  · simp [hf] at h
  · simpa [hf] using h

/-- The entry of `b` in a table `MakeBusinessSuggestions` returns, with the
qualifying reviews of `b` non-empty and its three sums. -/
theorem MakeBusinessSuggestions_entry (reviews : Map ReviewKey Stars)
    (businesses : Map String Stars) (common_reviewers : Map String CommonReviewer)
    (user_id : String) (sug : Map String BusinessSuggestion)
    (hsug : MakeBusinessSuggestions user_id common_reviewers businesses reviews = some sug)
    (b : String) (s : BusinessSuggestion) (hs : Map.find sug b = some s) :
    qualifyingReviews common_reviewers reviews b ≠ [] ∧
    s = (qualifyingReviews common_reviewers reviews b).foldl
      (fun s kv => MakeBusinessSuggestions.fold user_id kv
        (kv.2.average_stars - businessAverage businesses kv.1.business_id)
        (scoreOf common_reviewers kv) s) {} ∧
    s.num_references = ((qualifyingReviews common_reviewers reviews b).length : ℤ) ∧
    s.total_match_scores =
      ((qualifyingReviews common_reviewers reviews b).map (scoreOf common_reviewers)).sum ∧
    s.total_delta =
      ((qualifyingReviews common_reviewers reviews b).map
        (contribOf common_reviewers businesses)).sum := by
  obtain ⟨_, hfind⟩ :=
    MakeBusinessSuggestions_find reviews businesses common_reviewers user_id sug hsug
  rw [hfind b] at hs
  by_cases h : (qualifyingReviews common_reviewers reviews b).isEmpty = true
  · rw [if_pos h] at hs
    exact absurd hs (by simp)
  · rw [if_neg h] at hs
    have hs' := Option.some.inj hs
    obtain ⟨h1, h2, h3⟩ := foldl_fold_sums user_id
      (fun kv => kv.2.average_stars - businessAverage businesses kv.1.business_id)
      (scoreOf common_reviewers) (qualifyingReviews common_reviewers reviews b) {}
    rw [hs'] at h1 h2 h3
    refine ⟨?_, hs'.symm, by simpa using h1, by simpa using h2, ?_⟩
    · intro hc
      apply h
      rw [hc]
      rfl
    · rw [h3]
      simp only [zero_add]
      rfl

/-- C11: `MakeBusinessSuggestions` returns a table when every reviewed business is
in the business table, and every entry of a table it returns has
`num_references ≥ 1` and `total_match_scores > 0`, so the divisor of the predicted
rating is not 0. -/
theorem MakeBusinessSuggestions_entries_positive (reviews : Map ReviewKey Stars)
    (businesses : Map String Stars) (common_reviewers : Map String CommonReviewer)
    (user_id : String) :
    ((∀ kv ∈ reviews, (Map.find businesses kv.1.business_id).isSome = true) →
      ∃ sug, MakeBusinessSuggestions user_id common_reviewers businesses reviews = some sug) ∧
    ∀ sug : Map String BusinessSuggestion,
      MakeBusinessSuggestions user_id common_reviewers businesses reviews = some sug →
      ∀ entry ∈ sug, 1 ≤ entry.2.num_references ∧ 0 < entry.2.total_match_scores ∧
        entry.2.total_match_scores ≠ 0 := by
  refine ⟨fun hb =>
    MakeBusinessSuggestions_returns reviews businesses hb common_reviewers user_id, ?_⟩
  intro sug hsug entry hentry
  obtain ⟨hwf, _⟩ :=
    MakeBusinessSuggestions_find reviews businesses common_reviewers user_id sug hsug
  have hs := Map.find_eq_some_of_mem sug hwf entry.1 entry.2 hentry
  obtain ⟨hne, _, hnum, htms, _⟩ := MakeBusinessSuggestions_entry reviews businesses
    common_reviewers user_id sug hsug entry.1 entry.2 hs
  have hpos : 0 < entry.2.total_match_scores := by
    rw [htms]
    apply List.sum_pos
    · intro x hx
      obtain ⟨kv, hkv, rfl⟩ := List.mem_map.1 hx
      exact scoreOf_pos_of_qualifies common_reviewers kv
        ((mem_qualifyingReviews common_reviewers reviews entry.1 kv).1 hkv).2.2
    · intro hc
      exact hne (List.map_eq_nil_iff.1 hc)
  refine ⟨?_, hpos, ne_of_gt hpos⟩
  rw [hnum]
  have := List.length_pos.2 hne
  exact_mod_cast this

theorem MakeBusinessSuggestions_entries_positive_witness :
    (∃ sug, MakeBusinessSuggestions "U1" scenarioA_reviewers (ComputeBusinessData scenarioA)
      scenarioA = some sug) ∧
    ∀ entry ∈ ([("B1", scenarioA_suggestion)] : Map String BusinessSuggestion),
      1 ≤ entry.2.num_references ∧ 0 < entry.2.total_match_scores ∧
        entry.2.total_match_scores ≠ 0 :=
  ⟨(MakeBusinessSuggestions_entries_positive scenarioA (ComputeBusinessData scenarioA)
      scenarioA_reviewers "U1").1 (by decide!),
    (MakeBusinessSuggestions_entries_positive scenarioA (ComputeBusinessData scenarioA)
      scenarioA_reviewers "U1").2 [("B1", scenarioA_suggestion)] (by decide!)⟩

/-! ## A target user without reviews -/

theorem collect_of_no_review (user_id : String) (l : List (ReviewKey × Stars))
    (h : ∀ kv ∈ l, kv.1.user_id ≠ user_id) (m : Map String ℚ) :
    l.foldlM (FindCommonReviewers.collect user_id) m = some m := by
  induction l with
  | nil => rfl
  | cons x xs ih =>
    rw [List.foldlM_cons]
    have hx : FindCommonReviewers.collect user_id m x = some m := by
      simp [FindCommonReviewers.collect, h x (List.mem_cons_self _ _)]
    rw [hx]
    exact ih (fun kv hkv => h kv (List.mem_cons_of_mem _ hkv))

theorem step_of_none_reviewed (businesses : Map String Stars) (l : List (ReviewKey × Stars))
    (cr : Map String CommonReviewer) :
    l.foldlM (FindCommonReviewers.step businesses []) cr = some cr := by
  induction l with
  | nil => rfl
  | cons x xs ih =>
    rw [List.foldlM_cons]
    have hx : FindCommonReviewers.step businesses [] cr x = some cr := by
      simp [FindCommonReviewers.step, Map.find]
    rw [hx]
    exact ih

theorem step_of_no_common_reviewer (user_id : String) (businesses : Map String Stars)
    (l : List (ReviewKey × Stars)) (sug : Map String BusinessSuggestion) :
    l.foldlM (MakeBusinessSuggestions.step user_id [] businesses) sug = some sug := by
  induction l with
  | nil => rfl
  | cons x xs ih =>
    rw [List.foldlM_cons]
    have hx : MakeBusinessSuggestions.step user_id [] businesses sug x = some sug := by
      simp [MakeBusinessSuggestions.step, Map.find]
    rw [hx]
    exact ih

/-- C12: for a target user without a review in the table, whatever the users and
business tables, `FindCommonReviewers` from an empty table returns the empty table
and `MakeBusinessSuggestions` on it returns the empty table; no `assert` fails. -/
theorem no_review_target_gives_empty_tables (reviews : Map ReviewKey Stars)
    (users : Map String Delta) (businesses : Map String Stars) (user_id : String)
    (h : ∀ kv ∈ reviews, kv.1.user_id ≠ user_id) :
    FindCommonReviewers [] user_id users businesses reviews = some [] ∧
      MakeBusinessSuggestions user_id [] businesses reviews = some [] := by
  constructor
  · unfold FindCommonReviewers
    rw [collect_of_no_review user_id reviews h [], Option.some_bind]
    exact step_of_none_reviewed businesses reviews []
  · exact step_of_no_common_reviewer user_id businesses reviews []

theorem no_review_target_gives_empty_tables_witness :
    (∀ kv ∈ scenarioA, kv.1.user_id ≠ "U9") ∧
    FindCommonReviewers [] "U9" [] [] scenarioA = some [] ∧
      MakeBusinessSuggestions "U9" [] [] scenarioA = some [] :=
  ⟨by decide!, no_review_target_gives_empty_tables scenarioA [] [] "U9" (by decide!)⟩

/-! ## The sign of the match score -/

theorem MakeBusinessSuggestions_step_skip (user_id : String)
    (common_reviewers : Map String CommonReviewer) (businesses : Map String Stars)
    (suggestions : Map String BusinessSuggestion) (kv : ReviewKey × Stars)
    (hq : qualifies common_reviewers kv = false)
    (hb : (Map.find businesses kv.1.business_id).isSome = true) :
    MakeBusinessSuggestions.step user_id common_reviewers businesses suggestions kv =
      some suggestions := by
  rcases MakeBusinessSuggestions_step_cases user_id common_reviewers businesses suggestions kv
    with h | h
  · rw [h.2] at hb
    simp at hb
  · rw [h]
    simp [MakeBusinessSuggestions.accumulate, hq]

/-- C13: Scenario A with target U1. The business table gives B1 the average 4;
`FindCommonReviewers` gives U2 the entry (2, 1) of match score -1/4 and U3 the entry
(1, 1) of match score 0; the loop body of `MakeBusinessSuggestions` leaves the
suggestion table unchanged on the review of U2 and on that of U3, and the table it
returns has the single entry of B1, built from the one qualifying review, U1's. -/
theorem scenarioA_values :
    ComputeBusinessData scenarioA = [("B1", ⟨4, 3⟩)] ∧
    FindCommonReviewers [] "U1" [] (ComputeBusinessData scenarioA) scenarioA =
      some scenarioA_reviewers ∧
    Map.find scenarioA_reviewers "U2" = some ⟨2, 1⟩ ∧
    CommonReviewer.MatchScore ⟨2, 1⟩ = -1 / 4 ∧
    Map.find scenarioA_reviewers "U3" = some ⟨1, 1⟩ ∧
    CommonReviewer.MatchScore ⟨1, 1⟩ = 0 ∧
    (∀ suggestions : Map String BusinessSuggestion,
      MakeBusinessSuggestions.step "U1" scenarioA_reviewers (ComputeBusinessData scenarioA)
        suggestions (⟨"B1", "U2"⟩, ⟨3, 1⟩) = some suggestions) ∧
    (∀ suggestions : Map String BusinessSuggestion,
      MakeBusinessSuggestions.step "U1" scenarioA_reviewers (ComputeBusinessData scenarioA)
        suggestions (⟨"B1", "U3"⟩, ⟨4, 1⟩) = some suggestions) ∧
    MakeBusinessSuggestions "U1" scenarioA_reviewers (ComputeBusinessData scenarioA)
      scenarioA = some [("B1", scenarioA_suggestion)] ∧
    qualifyingReviews scenarioA_reviewers scenarioA "B1" = [(⟨"B1", "U1"⟩, ⟨5, 1⟩)] := by
  refine ⟨by decide!, by decide!, by decide!, by decide!, by decide!, by decide!, ?_, ?_,
    by decide!, by decide!⟩
  · intro suggestions
    exact MakeBusinessSuggestions_step_skip "U1" scenarioA_reviewers _ suggestions _
      (by decide!) (by decide!)
  · intro suggestions
    exact MakeBusinessSuggestions_step_skip "U1" scenarioA_reviewers _ suggestions _
      (by decide!) (by decide!)

/-- C14: Scenario B with target U1. U3 has the entry (1, 2), of match score
1/3 > 0, and the suggestion table `main` builds has B2 with `remove = false` and
`positive_ref.reviewer_id = "U3"`; B2 is the one row printed. -/
theorem scenarioB_values :
    Map.WF scenarioB ∧
    ComputeBusinessData scenarioB = [("B1", ⟨4, 3⟩), ("B2", ⟨9 / 2, 2⟩), ("B3", ⟨4, 2⟩)] ∧
    FindCommonReviewers [] "U1" [] (ComputeBusinessData scenarioB) scenarioB =
      some scenarioB_reviewers ∧
    Map.find scenarioB_reviewers "U3" = some ⟨1, 2⟩ ∧
    CommonReviewer.MatchScore ⟨1, 2⟩ = 1 / 3 ∧
    0 < CommonReviewer.MatchScore ⟨1, 2⟩ ∧
    (∃ suggestions, main_suggestions "U1" scenarioB = some suggestions ∧
      Map.find suggestions "B2" = some scenarioB_suggestion) ∧
    scenarioB_suggestion.remove = false ∧
    scenarioB_suggestion.positive_ref.reviewer_id = "U3" ∧
    (∃ rows, main_suggest_businesses "U1" scenarioB = some rows ∧
      rows.map (fun row => (row.business_id, row.reviewer_id)) = [("B2", "U3")]) := by
  refine ⟨by decide!, by decide!, by decide!, by decide!, by decide!, by decide!, ?_,
    by decide!, by decide!, ?_⟩
  · exact ⟨[("B1", ⟨1, 4 / 3, 2, true, ⟨"U1", 5, 1⟩, {}⟩), ("B2", scenarioB_suggestion),
      ("B3", ⟨0, 4 / 3, 2, true, {}, {}⟩)], by decide!, by decide!⟩
  · exact ⟨[⟨"U1", "B2", 1 / 6, 1, 1 / 3, 2, 9 / 2, 5, "U3", 5, 1 / 6⟩], by decide!,
      by decide!⟩

/-! ## ComputeUserData -/

theorem Delta_foldl_add {α : Type} (w : α → ℚ) (L : List α) (v : Delta) :
    L.foldl (fun (d : Delta) x =>
        ({ average_delta := d.average_delta + w x, count := d.count + 1 } : Delta)) v =
      { average_delta := v.average_delta + (L.map w).sum, count := v.count + (L.length : ℤ) } := by
  induction L generalizing v with
  | nil => simp
  | cons x xs ih =>
    rw [List.foldl_cons, ih]
    simp only [List.map_cons, List.sum_cons, List.length_cons, Nat.cast_add, Nat.cast_one,
      Delta.mk.injEq]
    constructor <;> ring

/-- The table `ComputeUserData` returns when every reviewed business is in the
business table, entry by entry. -/
theorem ComputeUserData_find (reviews : Map ReviewKey Stars) (businesses : Map String Stars)
    (hb : ∀ kv ∈ reviews, (Map.find businesses kv.1.business_id).isSome = true) :
    ∃ users : Map String Delta, ComputeUserData businesses reviews = some users ∧
      Map.WF users ∧
      ∀ u, Map.find users u =
        if (reviewsOfUser reviews u).isEmpty then none
        else some
          { average_delta :=
              ((reviewsOfUser reviews u).map (fun kv =>
                kv.2.average_stars - businessAverage businesses kv.1.business_id)).sum /
                ((reviewsOfUser reviews u).length : ℚ),
            count := ((reviewsOfUser reviews u).length : ℤ) } := by
  obtain ⟨step, hstep⟩ : ∃ step : Map String Delta → ReviewKey × Stars → Map String Delta,
      ∀ m kv, step m kv =
      if (fun _ : ReviewKey × Stars => True) kv then
        Map.update {} ((fun (kv : ReviewKey × Stars) (delta : Delta) =>
            ({ average_delta := delta.average_delta +
                 (kv.2.average_stars - businessAverage businesses kv.1.business_id),
               count := delta.count + 1 } : Delta)) kv)
          ((fun kv : ReviewKey × Stars => kv.1.user_id) kv) m
      else m := ⟨_, fun _ _ => rfl⟩
  have hrun : reviews.foldlM (ComputeUserData.accumulate businesses) [] =
      some (reviews.foldl step []) := by
    apply Map.foldlM_eq_some_foldl _ _ reviews
    intro kv hkv m
    have h1 := hb kv hkv
    rw [hstep]
    unfold ComputeUserData.accumulate businessAverage
    rcases Option.eq_none_or_eq_some (Map.find businesses kv.1.business_id) with
      hf | ⟨bs, hf⟩
    · rw [hf] at h1; simp at h1
    · simp [hf]
  refine ⟨Map.mapValues Delta.divide (reviews.foldl step []), ?_, ?_, ?_⟩
  · unfold ComputeUserData
    rw [hrun]
    rfl
  · exact Map.mapValues_WF _ _ (Map.foldl_step_WF _ _ _ _ _ hstep reviews)
  · intro u
    have h := Map.find_foldl_step _ _ _ _ _ hstep reviews u
      (fun kv => decide (kv.1.user_id = u)) (by intro x; simp)
    rw [Map.find_mapValues, h, Delta_foldl_add]
    unfold reviewsOfUser
    split_ifs
    · rfl
    · simp [Delta.divide]

theorem reviewsOfUser_isEmpty_iff (reviews : Map ReviewKey Stars) (u : String) :
    (reviewsOfUser reviews u).isEmpty = true ↔ u ∉ reviews.map (fun kv => kv.1.user_id) := by
  unfold reviewsOfUser
  rw [List.isEmpty_iff, List.filter_eq_nil_iff]
  simp

/-- C15: with the business table of `ComputeBusinessData`, `ComputeUserData` returns
a table with an entry for exactly the users of the review table (one each); the
entry's count is the number of the user's reviews and its `average_delta` the sum
over them of (review.average_stars - the business's average_stars) over that
count. -/
theorem ComputeUserData_mean (reviews : Map ReviewKey Stars) :
    ∃ users : Map String Delta,
      ComputeUserData (ComputeBusinessData reviews) reviews = some users ∧
      (users.map Prod.fst).Nodup ∧
      (∀ u : String, u ∈ users.map Prod.fst ↔ u ∈ reviews.map (fun kv => kv.1.user_id)) ∧
      (∀ u d, (u, d) ∈ users →
        d.count = ((reviewsOfUser reviews u).length : ℤ) ∧
        d.average_delta =
          ((reviewsOfUser reviews u).map (fun kv =>
            kv.2.average_stars -
              businessAverage (ComputeBusinessData reviews) kv.1.business_id)).sum /
            (d.count : ℚ)) := by
  obtain ⟨users, hrun, hwf, hfind⟩ :=
    ComputeUserData_find reviews (ComputeBusinessData reviews) (ComputeBusinessData_covers reviews)
  refine ⟨users, hrun, Map.WF.nodup_keys _ hwf, ?_, ?_⟩
  · intro u
    rw [← Map.find_isSome_iff, hfind u]
    by_cases h : (reviewsOfUser reviews u).isEmpty = true
    · have h' := (reviewsOfUser_isEmpty_iff reviews u).1 h
      simp only [h, if_true, Option.isSome_none, Bool.false_eq_true, false_iff]
      exact h'
    · have h' : u ∈ reviews.map (fun kv => kv.1.user_id) := by
        by_contra hc
        exact h ((reviewsOfUser_isEmpty_iff reviews u).2 hc)
      simp only [h, Bool.false_eq_true, if_false, Option.isSome_some, true_iff]
      exact h'
  · intro u d hud
    have hf := (Map.find_eq_some_iff _ hwf u d).2 hud
    rw [hfind u] at hf
    by_cases h : (reviewsOfUser reviews u).isEmpty = true
    · simp [h] at hf
    · simp only [h, Bool.false_eq_true, if_false, Option.some.injEq] at hf
      subst hf
      exact ⟨rfl, by simp⟩

/-! ## The business lookups of the pipeline -/

/-- C16: with the business table of `ComputeBusinessData`, the lookup of the business
of every review of the table succeeds, so that on no review the loop bodies of
`ComputeUserData`, `FindCommonReviewers` and `MakeBusinessSuggestions` fail their
`assert` on the business; `ComputeUserData` and `MakeBusinessSuggestions` return, and
so does `FindCommonReviewers` on a well-formed review table. -/
theorem business_lookup_succeeds (reviews : Map ReviewKey Stars) :
    (∀ kv ∈ reviews,
      (Map.find (ComputeBusinessData reviews) kv.1.business_id).isSome = true) ∧
    (∀ kv ∈ reviews, ∀ users : Map String Delta,
      ComputeUserData.accumulate (ComputeBusinessData reviews) users kv ≠ none) ∧
    (∀ kv ∈ reviews, ∀ (reviewed_businesses : Map String ℚ)
      (common_reviewers : Map String CommonReviewer),
      FindCommonReviewers.step (ComputeBusinessData reviews) reviewed_businesses
        common_reviewers kv ≠ none) ∧
    (∀ kv ∈ reviews, ∀ (user_id : String) (common_reviewers : Map String CommonReviewer)
      (suggestions : Map String BusinessSuggestion),
      MakeBusinessSuggestions.step user_id common_reviewers (ComputeBusinessData reviews)
        suggestions kv ≠ none) ∧
    (∃ users, ComputeUserData (ComputeBusinessData reviews) reviews = some users) ∧
    (∀ (user_id : String) (common_reviewers : Map String CommonReviewer),
      ∃ suggestions, MakeBusinessSuggestions user_id common_reviewers
        (ComputeBusinessData reviews) reviews = some suggestions) ∧
    (Map.WF reviews →
      ∀ (user_id : String) (users : Map String Delta)
        (common_reviewers : Map String CommonReviewer),
        ∃ cr, FindCommonReviewers common_reviewers user_id users
          (ComputeBusinessData reviews) reviews = some cr) := by
  have hb := ComputeBusinessData_covers reviews
  refine ⟨hb, ?_, ?_, ?_, ComputeUserData_returns reviews _ hb, ?_, ?_⟩
  · intro kv hkv users
    have h1 := hb kv hkv
    rcases Option.eq_none_or_eq_some
      (Map.find (ComputeBusinessData reviews) kv.1.business_id) with hf | ⟨bs, hf⟩
    · rw [hf] at h1; simp at h1
    · simp [ComputeUserData.accumulate, hf]
  · intro kv hkv rb cr
    have h1 := hb kv hkv
    rcases Option.eq_none_or_eq_some
      (Map.find (ComputeBusinessData reviews) kv.1.business_id) with hf | ⟨bs, hf⟩
    · rw [hf] at h1; simp at h1
    · rcases Option.eq_none_or_eq_some (Map.find rb kv.1.business_id) with hr | ⟨stars, hr⟩
      · simp [FindCommonReviewers.step, hr]
      · simp [FindCommonReviewers.step, hr, hf]
  · intro kv hkv user_id cr sug
    rcases MakeBusinessSuggestions_step_cases user_id cr (ComputeBusinessData reviews) sug kv
      with h | h
    · have h1 := hb kv hkv
      rw [h.2] at h1
      simp at h1
    · rw [h]
      simp
  · intro user_id cr
    exact MakeBusinessSuggestions_returns reviews _ hb cr user_id
  · intro hwf user_id users cr
    exact FindCommonReviewers_returns reviews hwf users _ hb user_id cr

theorem business_lookup_succeeds_witness :
    Map.WF scenarioB ∧
    ∃ cr, FindCommonReviewers [] "U1" [] (ComputeBusinessData scenarioB) scenarioB = some cr :=
  ⟨by decide!, (business_lookup_succeeds scenarioB).2.2.2.2.2.2 (by decide!) "U1" [] []⟩

/-! ## The target user's own entry -/

theorem FindCommonReviewers_target_entry_of_some (reviews : Map ReviewKey Stars)
    (hwf : Map.WF reviews) (users : Map String Delta) (businesses : Map String Stars)
    (user_id : String) (ht : ∃ kv ∈ reviews, kv.1.user_id = user_id)
    (cr : Map String CommonReviewer)
    (hcr : FindCommonReviewers [] user_id users businesses reviews = some cr) :
    Map.find cr user_id = some
        { total_error := 0,
          reviews_in_common := ((reviewsOfUser reviews user_id).length : ℤ) } ∧
      1 ≤ (reviewsOfUser reviews user_id).length := by
  obtain ⟨_, hfind⟩ :=
    FindCommonReviewers_find_of_some reviews hwf users businesses user_id cr hcr
  obtain ⟨kv₀, hkv₀, hu₀⟩ := ht
  have hmem : kv₀ ∈ reviewsOfUser reviews user_id := by
    unfold reviewsOfUser
    rw [List.mem_filter]
    exact ⟨hkv₀, by simpa using hu₀⟩
  have hne : ¬ (reviewsOfUser reviews user_id).isEmpty = true := by
    rw [List.isEmpty_iff]
    intro hc
    rw [hc] at hmem
    simp at hmem
  have hself : sharedReviews reviews user_id user_id = reviewsOfUser reviews user_id :=
    sharedReviews_self reviews user_id
  refine ⟨?_, List.length_pos_of_mem hmem⟩
  rw [hfind user_id, hself, if_neg hne]
  congr 2
  apply List.sum_eq_zero
  intro x hx
  obtain ⟨kv, hkv, rfl⟩ := List.mem_map.1 hx
  unfold reviewsOfUser at hkv
  rw [List.mem_filter] at hkv
  rw [rating_of_mem reviews hwf kv hkv.1 user_id (by simpa using hkv.2)]
  simp

theorem reviewsOfUser_length (reviews : Map ReviewKey Stars) (hwf : Map.WF reviews)
    (u : String) :
    (reviewsOfUser reviews u).length = (businessesReviewedBy reviews u).card := by
  have hself : sharedReviews reviews u u = reviewsOfUser reviews u := sharedReviews_self reviews u
  have hfs := sharedReviews_businesses_toFinset reviews u u
  have hnd := sharedReviews_businesses_nodup reviews hwf u u
  have hcb : commonBusinesses reviews u u = businessesReviewedBy reviews u := by
    unfold commonBusinesses businessesReviewedBy
    apply Finset.filter_congr
    intro b _
    exact and_self_iff
  rw [← hcb, ← hfs, List.toFinset_card_of_nodup hnd, List.length_map, hself]

/-- C17: for a target user with at least one review, `FindCommonReviewers` (from an
empty table) returns a table when every reviewed business is in the business
table, and a table it returns has the entry (0, n) for the target itself, n ≥ 1
being the number of businesses the target reviewed; the match score of the entry
is n / 2 > 0, the loop body of `MakeBusinessSuggestions` folds every review by the
target into the suggestion of its business, and in the table
`MakeBusinessSuggestions` returns that suggestion has `remove = true`. -/
theorem FindCommonReviewers_self_entry (reviews : Map ReviewKey Stars) (hwf : Map.WF reviews)
    (users : Map String Delta) (businesses : Map String Stars) (user_id : String)
    (ht : ∃ kv ∈ reviews, kv.1.user_id = user_id) :
    ((∀ kv ∈ reviews, (Map.find businesses kv.1.business_id).isSome = true) →
      ∃ cr, FindCommonReviewers [] user_id users businesses reviews = some cr) ∧
    ∀ cr : Map String CommonReviewer,
      FindCommonReviewers [] user_id users businesses reviews = some cr →
      Map.find cr user_id =
        some ⟨0, ((businessesReviewedBy reviews user_id).card : ℤ)⟩ ∧
      1 ≤ (businessesReviewedBy reviews user_id).card ∧
      CommonReviewer.MatchScore ⟨0, ((businessesReviewedBy reviews user_id).card : ℤ)⟩ =
        ((businessesReviewedBy reviews user_id).card : ℚ) / 2 ∧
      0 < CommonReviewer.MatchScore ⟨0, ((businessesReviewedBy reviews user_id).card : ℤ)⟩ ∧
      (∀ kv ∈ reviews, kv.1.user_id = user_id →
        ∀ (suggestions : Map String BusinessSuggestion) (b : Stars),
          Map.find businesses kv.1.business_id = some b →
          MakeBusinessSuggestions.step user_id cr businesses suggestions kv =
            some (Map.update {}
              (MakeBusinessSuggestions.fold user_id kv (kv.2.average_stars - b.average_stars)
                (CommonReviewer.MatchScore
                  ⟨0, ((businessesReviewedBy reviews user_id).card : ℤ)⟩))
              kv.1.business_id suggestions)) ∧
      (∀ sug : Map String BusinessSuggestion,
        MakeBusinessSuggestions user_id cr businesses reviews = some sug →
        ∀ kv ∈ reviews, kv.1.user_id = user_id →
          ∃ s, Map.find sug kv.1.business_id = some s ∧ s.remove = true) := by
  refine ⟨fun hb => FindCommonReviewers_returns reviews hwf users businesses hb user_id [], ?_⟩
  intro cr hcr
  obtain ⟨hentry, hlen⟩ := FindCommonReviewers_target_entry_of_some reviews hwf users
    businesses user_id ht cr hcr
  rw [reviewsOfUser_length reviews hwf user_id] at hentry hlen
  have hpos := MatchScore_pos_of_no_error
    ((businessesReviewedBy reviews user_id).card : ℤ) (by exact_mod_cast hlen)
  refine ⟨hentry, hlen, ?_, hpos, ?_, ?_⟩
  · unfold CommonReviewer.MatchScore
    simp only [Int.cast_natCast]
    ring
  · intro kv _ hu sug b hb
    have hentry' : Map.find cr kv.1.user_id =
        some ⟨0, ((businessesReviewedBy reviews user_id).card : ℤ)⟩ := by
      rw [hu]
      exact hentry
    simp [MakeBusinessSuggestions.step, hentry', hb, not_le.2 hpos]
  · intro sug hsug kv hkv hu
    obtain ⟨_, hfind⟩ := MakeBusinessSuggestions_find reviews businesses cr user_id sug hsug
    have hqual : qualifies cr kv = true := by
      unfold qualifies
      rw [hu, hentry]
      simp only [decide_eq_true_eq]
      exact hpos
    have hq : kv ∈ qualifyingReviews cr reviews kv.1.business_id :=
      (mem_qualifyingReviews cr reviews kv.1.business_id kv).2 ⟨hkv, rfl, hqual⟩
    have hne : ¬ (qualifyingReviews cr reviews kv.1.business_id).isEmpty = true := by
      rw [List.isEmpty_iff]
      intro hc
      rw [hc] at hq
      simp at hq
    have hfb := hfind kv.1.business_id
    rw [if_neg hne] at hfb
    have hrem := foldl_fold_remove user_id
      (fun kv => kv.2.average_stars - businessAverage businesses kv.1.business_id)
      (scoreOf cr) (qualifyingReviews cr reviews kv.1.business_id) {}
    have hany : (qualifyingReviews cr reviews kv.1.business_id).any
        (fun kv => decide (kv.1.user_id = user_id)) = true := by
      rw [List.any_eq_true]
      exact ⟨kv, hq, by simpa using hu⟩
    rw [hany, Bool.or_true] at hrem
    exact ⟨_, hfb, hrem⟩

theorem FindCommonReviewers_self_entry_witness :
    Map.WF scenarioB ∧ (∃ kv ∈ scenarioB, kv.1.user_id = "U1") ∧
    (∃ cr, FindCommonReviewers [] "U1" [] (ComputeBusinessData scenarioB) scenarioB =
      some cr) ∧
    Map.find scenarioB_reviewers "U1" =
      some ⟨0, ((businessesReviewedBy scenarioB "U1").card : ℤ)⟩ ∧
    1 ≤ (businessesReviewedBy scenarioB "U1").card :=
  ⟨by decide!, by decide!,
    (FindCommonReviewers_self_entry scenarioB (by decide!) [] (ComputeBusinessData scenarioB)
      "U1" (by decide!)).1 (by decide!),
    ((FindCommonReviewers_self_entry scenarioB (by decide!) [] (ComputeBusinessData scenarioB)
      "U1" (by decide!)).2 scenarioB_reviewers (by decide!)).1,
    ((FindCommonReviewers_self_entry scenarioB (by decide!) [] (ComputeBusinessData scenarioB)
      "U1" (by decide!)).2 scenarioB_reviewers (by decide!)).2.1⟩

/-! ## The printed reference and the predicted rating -/

/-- Every row `PrintBusinessSuggestions` prints is the row of a suggestion that is
not removed and whose business is in the business table. -/
theorem PrintBusinessSuggestions_row_of_mem (user_id : String) (businesses : Map String Stars)
    (l : Map String BusinessSuggestion) (rows₀ rows : List SuggestionRow)
    (h : l.foldlM (PrintBusinessSuggestions.step user_id businesses) rows₀ = some rows) :
    ∀ row ∈ rows, row ∈ rows₀ ∨ ∃ kv ∈ l, ∃ b : Stars,
      Map.find businesses kv.1 = some b ∧ kv.2.remove = false ∧
      row.business_id = kv.1 ∧ row.total_delta = kv.2.total_delta ∧
      row.predicted_average = predictedRating b kv.2 ∧
      row.reviewer_id = (chosenReference kv.2).reviewer_id ∧
      row.reviewer_stars = (chosenReference kv.2).reviewer_stars ∧
      row.reviewer_contrib = (chosenReference kv.2).contrib := by
  induction l generalizing rows₀ with
  | nil =>
    simp only [List.foldlM_nil] at h
    have h' := Option.some.inj h
    subst h'
    exact fun row hrow => Or.inl hrow
  | cons x xs ih =>
    rw [List.foldlM_cons] at h
    by_cases hr : x.2.remove = true
    · simp only [PrintBusinessSuggestions.step, hr, if_true] at h
      intro row hrow
      rcases ih rows₀ h row hrow with h1 | ⟨kv, hkv, rest⟩
      · exact Or.inl h1
      · exact Or.inr ⟨kv, List.mem_cons_of_mem _ hkv, rest⟩
    · rcases Option.eq_none_or_eq_some (Map.find businesses x.1) with hf | ⟨bs, hf⟩
      · simp [PrintBusinessSuggestions.step, hr, hf] at h
      · simp only [PrintBusinessSuggestions.step, hr, hf, Bool.false_eq_true, if_false] at h
        intro row hrow
        rcases ih _ h row hrow with h1 | ⟨kv, hkv, rest⟩
        · rcases List.mem_append.1 h1 with h3 | h3
          · exact Or.inl h3
          · rw [List.mem_singleton] at h3
            refine Or.inr ⟨x, List.mem_cons_self _ _, bs, hf, by simpa using hr, ?_⟩
            rw [h3]
            exact ⟨rfl, rfl, rfl, rfl, rfl, rfl⟩
        · exact Or.inr ⟨kv, List.mem_cons_of_mem _ hkv, rest⟩

/-- With every reviewed business in the business table, `MakeBusinessSuggestions`
returns a table and `PrintBusinessSuggestions` prints it without a failed `assert`. -/
theorem MakeBusinessSuggestions_prints (reviews : Map ReviewKey Stars)
    (businesses : Map String Stars)
    (hb : ∀ kv ∈ reviews, (Map.find businesses kv.1.business_id).isSome = true)
    (common_reviewers : Map String CommonReviewer) (user_id : String) :
    ∃ sug, MakeBusinessSuggestions user_id common_reviewers businesses reviews = some sug ∧
      ∃ rows, PrintBusinessSuggestions user_id sug businesses = some rows := by
  obtain ⟨sug, hsug, hwfsug, hfind⟩ :=
    MakeBusinessSuggestions_table reviews businesses hb common_reviewers user_id
  have hcov : ∀ kv ∈ sug, (Map.find businesses kv.1).isSome = true := by
    intro kv hkv
    have h1 := Map.find_eq_some_of_mem sug hwfsug kv.1 kv.2 hkv
    rw [hfind kv.1] at h1
    by_cases hq : (qualifyingReviews common_reviewers reviews kv.1).isEmpty = true
    · rw [if_pos hq] at h1
      exact absurd h1 (by simp)
    · rw [List.isEmpty_iff] at hq
      obtain ⟨x, hx⟩ := List.exists_mem_of_ne_nil _ hq
      rw [mem_qualifyingReviews] at hx
      rw [← hx.2.1]
      exact hb x hx.1
  obtain ⟨rows, hrows, _⟩ := PrintBusinessSuggestions_rows user_id businesses sug hcov []
  exact ⟨sug, hsug, rows, hrows⟩

theorem exists_pos_of_sum_pos {α : Type} (f : α → ℚ) (L : List α)
    (h : 0 < (L.map f).sum) : ∃ a ∈ L, 0 < f a := by
  induction L with
  | nil => simp at h
  | cons x xs ih =>
    rw [List.map_cons, List.sum_cons] at h
    by_cases hx : 0 < f x
    · exact ⟨x, List.mem_cons_self _ _, hx⟩
    · obtain ⟨a, ha, hpos⟩ := ih (by linarith)
      exact ⟨a, List.mem_cons_of_mem _ ha, hpos⟩

theorem exists_neg_of_sum_neg {α : Type} (f : α → ℚ) (L : List α)
    (h : (L.map f).sum < 0) : ∃ a ∈ L, f a < 0 := by
  induction L with
  | nil => simp at h
  | cons x xs ih =>
    rw [List.map_cons, List.sum_cons] at h
    by_cases hx : f x < 0
    · exact ⟨x, List.mem_cons_self _ _, hx⟩
    · obtain ⟨a, ha, hneg⟩ := ih (by linarith)
      exact ⟨a, List.mem_cons_of_mem _ ha, hneg⟩

/-- The references of an entry with a `total_delta` other than 0. -/
theorem MakeBusinessSuggestions_entry_references (reviews : Map ReviewKey Stars)
    (businesses : Map String Stars) (common_reviewers : Map String CommonReviewer)
    (user_id : String) (sug : Map String BusinessSuggestion)
    (hsug : MakeBusinessSuggestions user_id common_reviewers businesses reviews = some sug)
    (b : String) (s : BusinessSuggestion) (hs : Map.find sug b = some s) :
    (0 < s.total_delta → 0 < s.positive_ref.contrib ∧
      ∃ kv ∈ qualifyingReviews common_reviewers reviews b,
        s.positive_ref = referenceOf common_reviewers businesses kv) ∧
    (s.total_delta < 0 → s.negative_ref.contrib < 0 ∧
      ∃ kv ∈ qualifyingReviews common_reviewers reviews b,
        s.negative_ref = referenceOf common_reviewers businesses kv) := by
  obtain ⟨_, hfold, _, _, hdelta⟩ := MakeBusinessSuggestions_entry reviews businesses
    common_reviewers user_id sug hsug b s hs
  have hpos := foldl_fold_positive_ref user_id
    (fun kv => kv.2.average_stars - businessAverage businesses kv.1.business_id)
    (scoreOf common_reviewers) (qualifyingReviews common_reviewers reviews b) {}
  have hneg := foldl_fold_negative_ref user_id
    (fun kv => kv.2.average_stars - businessAverage businesses kv.1.business_id)
    (scoreOf common_reviewers) (qualifyingReviews common_reviewers reviews b) {}
  rw [← hfold] at hpos hneg
  have hP := running_best (contribOf common_reviewers businesses) Reference.contrib
    (referenceOf common_reviewers businesses) (fun _ => rfl)
    (qualifyingReviews common_reviewers reviews b) {}
  have hN := running_best (fun kv => -contribOf common_reviewers businesses kv)
    (fun r => -r.contrib) (referenceOf common_reviewers businesses) (fun _ => rfl)
    (qualifyingReviews common_reviewers reviews b) {}
  constructor
  · intro h
    rw [hdelta] at h
    obtain ⟨pre, kv, post, hQ, hres, hlt, _, _⟩ := hP.2 (exists_pos_of_sum_pos _ _ h)
    have href : s.positive_ref = referenceOf common_reviewers businesses kv := by
      rw [hpos]; exact hres
    refine ⟨?_, kv, by rw [hQ]; simp, href⟩
    rw [href]
    exact hlt
  · intro h
    rw [hdelta] at h
    obtain ⟨a, ha, hlt0⟩ := exists_neg_of_sum_neg _ _ h
    obtain ⟨pre, kv, post, hQ, hres, hlt, _, _⟩ :=
      hN.2 ⟨a, ha, by simp only [neg_zero]; exact neg_pos.2 hlt0⟩
    have href : s.negative_ref = referenceOf common_reviewers businesses kv := by
      rw [hneg]; exact hres
    refine ⟨?_, kv, by rw [hQ]; simp, href⟩
    rw [href]
    have h0 : -(0 : ℚ) < -contribOf common_reviewers businesses kv := hlt
    exact neg_lt_neg_iff.1 h0

/-- C18: `MakeBusinessSuggestions` returns a table, which `PrintBusinessSuggestions`
prints, when every reviewed business is in the business table; in an entry of a
table it returns, `total_delta > 0` gives a `positive_ref` of contribution above 0
that names a qualifying review of the business, and `total_delta < 0` a
`negative_ref` of contribution below 0 that names one; hence on a printed row with
`total_delta ≠ 0` the reviewer, stars and contribution are those of a qualifying
review of the row's business. -/
theorem printed_reference_is_contributor (reviews : Map ReviewKey Stars)
    (businesses : Map String Stars) (common_reviewers : Map String CommonReviewer)
    (user_id : String) :
    ((∀ kv ∈ reviews, (Map.find businesses kv.1.business_id).isSome = true) →
      ∃ sug, MakeBusinessSuggestions user_id common_reviewers businesses reviews = some sug ∧
        ∃ rows, PrintBusinessSuggestions user_id sug businesses = some rows) ∧
    ∀ sug : Map String BusinessSuggestion,
      MakeBusinessSuggestions user_id common_reviewers businesses reviews = some sug →
      (∀ (b : String) (s : BusinessSuggestion), Map.find sug b = some s →
        (0 < s.total_delta → 0 < s.positive_ref.contrib ∧
          ∃ kv ∈ qualifyingReviews common_reviewers reviews b,
            s.positive_ref = referenceOf common_reviewers businesses kv) ∧
        (s.total_delta < 0 → s.negative_ref.contrib < 0 ∧
          ∃ kv ∈ qualifyingReviews common_reviewers reviews b,
            s.negative_ref = referenceOf common_reviewers businesses kv)) ∧
      (∀ rows, PrintBusinessSuggestions user_id sug businesses = some rows →
        ∀ row ∈ rows, row.total_delta ≠ 0 →
          ∃ kv ∈ qualifyingReviews common_reviewers reviews row.business_id,
            row.reviewer_id = kv.1.user_id ∧ row.reviewer_stars = kv.2.average_stars ∧
            row.reviewer_contrib = contribOf common_reviewers businesses kv) := by
  refine ⟨fun hb =>
    MakeBusinessSuggestions_prints reviews businesses hb common_reviewers user_id, ?_⟩
  intro sug hsug
  have hrefs := MakeBusinessSuggestions_entry_references reviews businesses common_reviewers
    user_id sug hsug
  refine ⟨hrefs, ?_⟩
  intro rows hrows row hrow hne
  obtain ⟨hwf, _⟩ :=
    MakeBusinessSuggestions_find reviews businesses common_reviewers user_id sug hsug
  rcases PrintBusinessSuggestions_row_of_mem user_id businesses sug [] rows hrows row hrow with
    h | ⟨entry, hentry, bs, _, _, hb, hd, _, hid, hstars, hcontrib⟩
  · simp at h
  · have hs := Map.find_eq_some_of_mem sug hwf entry.1 entry.2 hentry
    obtain ⟨hp, hn⟩ := hrefs entry.1 entry.2 hs
    rw [hb]
    rw [hd] at hne
    rcases lt_or_gt_of_ne hne with hlt | hgt
    · obtain ⟨_, kv, hkv, href⟩ := hn hlt
      have hc : chosenReference entry.2 = referenceOf common_reviewers businesses kv := by
        unfold chosenReference
        rw [if_neg (not_le.2 hlt), href]
      rw [hc] at hid hstars hcontrib
      exact ⟨kv, hkv, hid, hstars, hcontrib⟩
    · obtain ⟨_, kv, hkv, href⟩ := hp hgt
      have hc : chosenReference entry.2 = referenceOf common_reviewers businesses kv := by
        unfold chosenReference
        rw [if_pos (le_of_lt hgt), href]
      rw [hc] at hid hstars hcontrib
      exact ⟨kv, hkv, hid, hstars, hcontrib⟩

theorem printed_reference_is_contributor_witness :
    (∃ sug, MakeBusinessSuggestions "U1" scenarioB_reviewers (ComputeBusinessData scenarioB)
        scenarioB = some sug ∧
      ∃ rows, PrintBusinessSuggestions "U1" sug (ComputeBusinessData scenarioB) = some rows) ∧
    0 < scenarioB_suggestion.positive_ref.contrib ∧
    ∃ kv ∈ qualifyingReviews scenarioB_reviewers scenarioB "B2",
      scenarioB_suggestion.positive_ref =
        referenceOf scenarioB_reviewers (ComputeBusinessData scenarioB) kv :=
  ⟨(printed_reference_is_contributor scenarioB (ComputeBusinessData scenarioB)
      scenarioB_reviewers "U1").1 (by decide!),
    (((printed_reference_is_contributor scenarioB (ComputeBusinessData scenarioB)
      scenarioB_reviewers "U1").2
        [("B1", ⟨1, 4 / 3, 2, true, ⟨"U1", 5, 1⟩, {}⟩), ("B2", scenarioB_suggestion),
          ("B3", ⟨0, 4 / 3, 2, true, {}, {}⟩)]
        (by decide!)).1 "B2" scenarioB_suggestion (by decide!)).1 (by decide!)⟩

theorem contrib_sum_eq (common_reviewers : Map String CommonReviewer)
    (businesses : Map String Stars) (b : String) (L : List (ReviewKey × Stars))
    (hL : ∀ kv ∈ L, kv.1.business_id = b) :
    (L.map (contribOf common_reviewers businesses)).sum =
      (L.map (fun kv => scoreOf common_reviewers kv * kv.2.average_stars)).sum -
        businessAverage businesses b * (L.map (scoreOf common_reviewers)).sum := by
  induction L with
  | nil => simp
  | cons x xs ih =>
    simp only [List.map_cons, List.sum_cons]
    rw [ih (fun kv hkv => hL kv (List.mem_cons_of_mem _ hkv))]
    unfold contribOf
    rw [hL x (List.mem_cons_self _ _)]
    ring

theorem weighted_sum_bounds {α : Type} (w r : α → ℚ) (lo hi : ℚ) (L : List α)
    (hw : ∀ a ∈ L, 0 < w a) (hr : ∀ a ∈ L, lo ≤ r a ∧ r a ≤ hi) :
    lo * (L.map w).sum ≤ (L.map (fun a => w a * r a)).sum ∧
      (L.map (fun a => w a * r a)).sum ≤ hi * (L.map w).sum := by
  induction L with
  | nil => simp
  | cons x xs ih =>
    simp only [List.map_cons, List.sum_cons]
    obtain ⟨h1, h2⟩ := ih (fun a ha => hw a (List.mem_cons_of_mem _ ha))
      (fun a ha => hr a (List.mem_cons_of_mem _ ha))
    have hwx := hw x (List.mem_cons_self _ _)
    obtain ⟨hlo, hhi⟩ := hr x (List.mem_cons_self _ _)
    have h3 : w x * lo ≤ w x * r x := mul_le_mul_of_nonneg_left hlo (le_of_lt hwx)
    have h4 : w x * r x ≤ w x * hi := mul_le_mul_of_nonneg_left hhi (le_of_lt hwx)
    constructor
    · linarith
    · linarith

/-- The predicted rating of an entry is the weighted mean of the ratings of the
qualifying reviews of its business, and lies within any bounds of these ratings. -/
theorem MakeBusinessSuggestions_entry_mean (reviews : Map ReviewKey Stars)
    (businesses : Map String Stars) (common_reviewers : Map String CommonReviewer)
    (user_id : String) (sug : Map String BusinessSuggestion)
    (hsug : MakeBusinessSuggestions user_id common_reviewers businesses reviews = some sug)
    (b : String) (s : BusinessSuggestion) (hs : Map.find sug b = some s)
    (bs : Stars) (hbs : Map.find businesses b = some bs) :
    predictedRating bs s =
        weightedMean common_reviewers (qualifyingReviews common_reviewers reviews b) ∧
      ∀ lo hi : ℚ,
        (∀ kv ∈ qualifyingReviews common_reviewers reviews b,
          lo ≤ kv.2.average_stars ∧ kv.2.average_stars ≤ hi) →
        lo ≤ predictedRating bs s ∧ predictedRating bs s ≤ hi := by
  obtain ⟨hne, _, _, htms, hdelta⟩ := MakeBusinessSuggestions_entry reviews businesses
    common_reviewers user_id sug hsug b s hs
  have hw : ∀ kv ∈ qualifyingReviews common_reviewers reviews b,
      0 < scoreOf common_reviewers kv := fun kv hkv =>
    scoreOf_pos_of_qualifies common_reviewers kv
      ((mem_qualifyingReviews common_reviewers reviews b kv).1 hkv).2.2
  have hW : 0 < ((qualifyingReviews common_reviewers reviews b).map
      (scoreOf common_reviewers)).sum := by
    apply List.sum_pos
    · intro x hx
      obtain ⟨kv, hkv, rfl⟩ := List.mem_map.1 hx
      exact hw kv hkv
    · intro hc
      exact hne (List.map_eq_nil_iff.1 hc)
  have hA : businessAverage businesses b = bs.average_stars := by
    unfold businessAverage
    rw [hbs]
  have hsum := contrib_sum_eq common_reviewers businesses b
    (qualifyingReviews common_reviewers reviews b)
    (fun kv hkv => ((mem_qualifyingReviews common_reviewers reviews b kv).1 hkv).2.1)
  rw [hA] at hsum
  have hmean : predictedRating bs s =
      weightedMean common_reviewers (qualifyingReviews common_reviewers reviews b) := by
    unfold predictedRating weightedMean
    rw [hdelta, htms, hsum]
    field_simp
  refine ⟨hmean, ?_⟩
  intro lo hi hr
  obtain ⟨h1, h2⟩ := weighted_sum_bounds (scoreOf common_reviewers)
    (fun kv => kv.2.average_stars) lo hi (qualifyingReviews common_reviewers reviews b) hw hr
  rw [hmean]
  unfold weightedMean
  exact ⟨(le_div_iff₀ hW).2 h1, (div_le_iff₀ hW).2 h2⟩

/-- C19, amended: in exact rational arithmetic, `MakeBusinessSuggestions` returns a
table, which `PrintBusinessSuggestions` prints, when every reviewed business is in
the business table; for an entry of a table it returns, the predicted rating
business average + total_delta / total_match_scores is the mean of the ratings of
the qualifying reviews of the business weighted by their users' match scores, in
which the business average does not occur, and lies within any bounds of these
ratings; the printed rows carry this value. -/
theorem predicted_rating_is_weighted_mean (reviews : Map ReviewKey Stars)
    (businesses : Map String Stars) (common_reviewers : Map String CommonReviewer)
    (user_id : String) :
    ((∀ kv ∈ reviews, (Map.find businesses kv.1.business_id).isSome = true) →
      ∃ sug, MakeBusinessSuggestions user_id common_reviewers businesses reviews = some sug ∧
        ∃ rows, PrintBusinessSuggestions user_id sug businesses = some rows) ∧
    ∀ sug : Map String BusinessSuggestion,
      MakeBusinessSuggestions user_id common_reviewers businesses reviews = some sug →
      (∀ (b : String) (s : BusinessSuggestion) (bs : Stars),
        Map.find sug b = some s → Map.find businesses b = some bs →
        bs.average_stars + s.total_delta / s.total_match_scores =
          weightedMean common_reviewers (qualifyingReviews common_reviewers reviews b) ∧
        ∀ lo hi : ℚ,
          (∀ kv ∈ qualifyingReviews common_reviewers reviews b,
            lo ≤ kv.2.average_stars ∧ kv.2.average_stars ≤ hi) →
          lo ≤ bs.average_stars + s.total_delta / s.total_match_scores ∧
            bs.average_stars + s.total_delta / s.total_match_scores ≤ hi) ∧
      (∀ rows, PrintBusinessSuggestions user_id sug businesses = some rows →
        ∀ row ∈ rows,
          row.predicted_average = weightedMean common_reviewers
            (qualifyingReviews common_reviewers reviews row.business_id) ∧
          ∀ lo hi : ℚ,
            (∀ kv ∈ qualifyingReviews common_reviewers reviews row.business_id,
              lo ≤ kv.2.average_stars ∧ kv.2.average_stars ≤ hi) →
            lo ≤ row.predicted_average ∧ row.predicted_average ≤ hi) := by
  refine ⟨fun hb =>
    MakeBusinessSuggestions_prints reviews businesses hb common_reviewers user_id, ?_⟩
  intro sug hsug
  constructor
  · intro b s bs hs hbs
    exact MakeBusinessSuggestions_entry_mean reviews businesses common_reviewers user_id sug
      hsug b s hs bs hbs
  · intro rows hrows row hrow
    obtain ⟨hwf, _⟩ :=
      MakeBusinessSuggestions_find reviews businesses common_reviewers user_id sug hsug
    rcases PrintBusinessSuggestions_row_of_mem user_id businesses sug [] rows hrows row hrow
      with h | ⟨entry, hentry, bs, hbs, _, hb, _, hpred, _⟩
    · simp at h
    · have hs := Map.find_eq_some_of_mem sug hwf entry.1 entry.2 hentry
      rw [hb, hpred]
      exact MakeBusinessSuggestions_entry_mean reviews businesses common_reviewers user_id sug
        hsug entry.1 entry.2 hs bs hbs

theorem predicted_rating_is_weighted_mean_witness :
    (∃ sug, MakeBusinessSuggestions "U1" scenarioB_reviewers (ComputeBusinessData scenarioB)
        scenarioB = some sug ∧
      ∃ rows, PrintBusinessSuggestions "U1" sug (ComputeBusinessData scenarioB) = some rows) ∧
    (⟨9 / 2, 2⟩ : Stars).average_stars +
        scenarioB_suggestion.total_delta / scenarioB_suggestion.total_match_scores =
      weightedMean scenarioB_reviewers (qualifyingReviews scenarioB_reviewers scenarioB "B2") ∧
    (5 : ℚ) ≤ (⟨9 / 2, 2⟩ : Stars).average_stars +
        scenarioB_suggestion.total_delta / scenarioB_suggestion.total_match_scores ∧
    (⟨9 / 2, 2⟩ : Stars).average_stars +
        scenarioB_suggestion.total_delta / scenarioB_suggestion.total_match_scores ≤ 5 :=
  ⟨(predicted_rating_is_weighted_mean scenarioB (ComputeBusinessData scenarioB)
      scenarioB_reviewers "U1").1 (by decide!),
    (((predicted_rating_is_weighted_mean scenarioB (ComputeBusinessData scenarioB)
      scenarioB_reviewers "U1").2
        [("B1", ⟨1, 4 / 3, 2, true, ⟨"U1", 5, 1⟩, {}⟩), ("B2", scenarioB_suggestion),
          ("B3", ⟨0, 4 / 3, 2, true, {}, {}⟩)]
        (by decide!)).1 "B2" scenarioB_suggestion ⟨9 / 2, 2⟩ (by decide!) (by decide!)).1,
    (((predicted_rating_is_weighted_mean scenarioB (ComputeBusinessData scenarioB)
      scenarioB_reviewers "U1").2
        [("B1", ⟨1, 4 / 3, 2, true, ⟨"U1", 5, 1⟩, {}⟩), ("B2", scenarioB_suggestion),
          ("B3", ⟨0, 4 / 3, 2, true, {}, {}⟩)]
        (by decide!)).1 "B2" scenarioB_suggestion ⟨9 / 2, 2⟩ (by decide!) (by decide!)).2 5 5
        (by decide!)⟩

/-! ## The arithmetic of the binary -/

/-- Known binary64 roundings: 0.1, the sum 0.1 + 0.2 = 0.30000000000000004, the
ties 2^53 + 1 and 2^53 + 3 going to the even neighbour, and the smallest positive
value 2^-1074 with the tie below it going to 0. -/
theorem roundToDouble_values :
    roundToDouble (1 / 10) = 3602879701896397 / 36028797018963968 ∧
    roundToDouble (roundToDouble (1 / 10) + roundToDouble (2 / 10)) =
      1351079888211149 / 4503599627370496 ∧
    roundToDouble 1 = 1 ∧
    roundToDouble (9007199254740993) = 9007199254740992 ∧
    roundToDouble (9007199254740995) = 9007199254740996 ∧
    roundToDouble (-(5 / 3)) = -(7505999378950827 / 4503599627370496) ∧
    roundToDouble (1 / 2 ^ 1074) = 1 / 2 ^ 1074 ∧
    roundToDouble (1 / 2 ^ 1075) = 0 := by
  refine ⟨by decide!, by decide!, by decide!, by decide!, by decide!, by decide!, by decide!,
    by decide!⟩

theorem MatchScore_rounded_id (c : CommonReviewer) :
    c.MatchScore_rounded id = c.MatchScore := rfl

theorem fold_rounded_id :
    MakeBusinessSuggestions.fold_rounded id = MakeBusinessSuggestions.fold := rfl

theorem step_rounded_id :
    MakeBusinessSuggestions.step_rounded id = MakeBusinessSuggestions.step := rfl

theorem MakeBusinessSuggestions_rounded_id :
    MakeBusinessSuggestions_rounded id = MakeBusinessSuggestions := rfl

theorem PrintBusinessSuggestions_rounded_id :
    PrintBusinessSuggestions_rounded id = PrintBusinessSuggestions := rfl

/-- C19, as stated, fails in the arithmetic of the binary. On `roundingTable` with
target U1 (business averages and CommonReviewer entries are whole or half numbers,
exact in binary64) the one qualifying review of B1 is U2's, of rating 1; the match
score of U2 rounds to 0.6666666666666667, the contribution -3 times it rounds to
-2, the quotient -2 / 0.6666666666666667 rounds to -2.9999999999999996 and the
predicted rating 4 plus it is 1 + 2^-51 = 1.0000000000000004: not the weighted
mean 1, and above the highest qualifying rating. -/
theorem predicted_rating_rounding_counterexample :
    Map.WF roundingTable ∧
    ComputeBusinessData roundingTable =
      [("A1", ⟨5, 2⟩), ("A2", ⟨5, 2⟩), ("A3", ⟨9 / 2, 2⟩), ("B1", ⟨4, 4⟩)] ∧
    FindCommonReviewers [] "U1" [] (ComputeBusinessData roundingTable) roundingTable =
      some roundingTable_reviewers ∧
    qualifyingReviews roundingTable_reviewers roundingTable "B1" =
      [(⟨"B1", "U2"⟩, ⟨1, 1⟩)] ∧
    CommonReviewer.MatchScore_rounded roundToDouble ⟨1, 3⟩ =
      3002399751580331 / 4503599627370496 ∧
    (MakeBusinessSuggestions_rounded roundToDouble "U1" roundingTable_reviewers
        (ComputeBusinessData roundingTable) roundingTable).bind
        (fun suggestions => Map.find suggestions "B1") =
      some ⟨-2, 3002399751580331 / 4503599627370496, 1, false, {}, ⟨"U2", 1, -2⟩⟩ ∧
    (MakeBusinessSuggestions_rounded roundToDouble "U1" roundingTable_reviewers
        (ComputeBusinessData roundingTable) roundingTable).bind
        (fun suggestions => PrintBusinessSuggestions_rounded roundToDouble "U1" suggestions
          (ComputeBusinessData roundingTable)) =
      some [⟨"U1", "B1", -2, 1, 3002399751580331 / 4503599627370496, 4, 4,
        2251799813685249 / 2251799813685248, "U2", 1, -2⟩] ∧
    weightedMean roundingTable_reviewers [(⟨"B1", "U2"⟩, ⟨1, 1⟩)] = 1 ∧
    roundToDouble (roundToDouble ((3002399751580331 / 4503599627370496 : ℚ) * 1) /
      (3002399751580331 / 4503599627370496 : ℚ)) = 1 ∧
    (2251799813685249 / 2251799813685248 : ℚ) ≠ 1 ∧
    ¬ ((2251799813685249 / 2251799813685248 : ℚ) ≤ 1) := by
  refine ⟨by decide!, by decide!, by decide!, by decide!, by decide!, by decide!, by decide!,
    by decide!, by decide!, by decide!, by decide!⟩

end YMatch
